import Mathlib

/-!
Shallow embedding of the estaciones stage-KPI pipeline
(src/pages/0_Animation_Demo.py) together with proofs about its behaviour.

The file has two layers:

* a calendar layer: proleptic Gregorian dates and the month-difference
  algorithm of dateutil.relativedelta, which transform_data uses to compute
  the four KPI columns, plus the approximate days/30 variant used by
  calculate_kpis;

* a table layer: a small column-named data-frame model with the two pipeline
  stages calculate_kpis and transform_data exactly as the source composes
  them in main (load, calculate_kpis, transform_data).
-/

namespace Estaciones

/-- A proleptic Gregorian calendar date, as carried by a pandas timestamp at
midnight.  Nothing about validity is built into the type; month-range
hypotheses appear explicitly where proofs need them. -/
structure Date where
  year : Int
  month : Int
  day : Int
deriving DecidableEq

/-- Gregorian leap-year test. -/
def isLeap (y : Int) : Bool := y % 4 == 0 && (y % 100 != 0 || y % 400 == 0)

/-- Number of days in month m of year y. -/
def daysInMonth (y m : Int) : Int :=
  if m = 2 then (if isLeap y then 29 else 28)
  else if m = 4 ∨ m = 6 ∨ m = 9 ∨ m = 11 then 30
  else 31

/-- Strict lexicographic (timestamp) order on dates, as a boolean. -/
def Date.ltb (a b : Date) : Bool :=
  if a.year < b.year then true
  else if b.year < a.year then false
  else if a.month < b.month then true
  else if b.month < a.month then false
  else decide (a.day < b.day)

/-- Linear month index: number of months after month 1 of year 0. -/
def monthIdx (d : Date) : Int := 12 * d.year + d.month - 1

/-- The normalisation step of dateutil relativedelta `_set_months`: a total
month count is split into a years part and a months part whose absolute value
is at most 11, both carrying the sign of the input. -/
def setMonths (t : Int) : Int × Int :=
  if 11 < t.natAbs then
    (((t.natAbs / 12 : Nat) : Int) * (if t < 0 then -1 else 1),
     ((t.natAbs % 12 : Nat) : Int) * (if t < 0 then -1 else 1))
  else (0, t)

/-- Year carried after adding a (possibly out-of-range) month value m to a
date whose year is y, per relativedelta `__radd__`: one single wrap step. -/
def normY (y m : Int) : Int :=
  if 12 < m then y + 1 else if m < 1 then y - 1 else y

/-- Month after the single wrap step of relativedelta `__radd__`. -/
def normM (m : Int) : Int :=
  if 12 < m then m - 12 else if m < 1 then m + 12 else m

/-- relativedelta `__radd__` restricted to a years/months delta: add the
years, add the months with one wrap step, then clamp the day to the length of
the target month. -/
def plusDelta (d : Date) (ys ms : Int) : Date :=
  Date.mk (normY (d.year + ys) (d.month + ms)) (normM (d.month + ms))
    (min d.day (daysInMonth (normY (d.year + ys) (d.month + ms)) (normM (d.month + ms))))

/-- Adding a raw month total t to a date: `_set_months` then `__radd__`. -/
def radd (d : Date) (t : Int) : Date := plusDelta d (setMonths t).1 (setMonths t).2

/-- The correction loop of the relativedelta two-date constructor: starting
from the naive month-index difference, step the total towards the target
until the reconstructed date no longer overshoots.  Fuel-indexed; for
month-valid dates the loop stops after at most one step. -/
def adjustLoop : Nat → Date → Date → Int → Int
  | 0, _, _, t => t
  | fuel + 1, dt1, dt2, t =>
    if dt1.ltb dt2 then
      if (radd dt2 t).ltb dt1 then adjustLoop fuel dt1 dt2 (t + 1) else t
    else
      if dt1.ltb (radd dt2 t) then adjustLoop fuel dt1 dt2 (t - 1) else t

/-- Total month count computed by `relativedelta(dt1, dt2)` before the final
`_set_months` normalisation. -/
def rdTotal (dt1 dt2 : Date) : Int :=
  adjustLoop 1000 dt1 dt2 (monthIdx dt1 - monthIdx dt2)

/-- The `.months` field of `relativedelta(dt1, dt2)`: the months component of
the normalised delta, with the years component discarded. -/
def relativedeltaMonths (dt1 dt2 : Date) : Int :=
  (setMonths (rdTotal dt1 dt2)).2

/-- The row-wise KPI closure of transform_data lines 50-53: the months field
of the relativedelta of the two milestone dates when both are present, and
None when either is absent. -/
def kpiMonths (later earlier : Option Date) : Option Int :=
  match later, earlier with
  | some l, some e => some (relativedeltaMonths l e)
  | _, _ => none

/-- Days from the start of year 1 to the start of year y (proleptic
Gregorian). -/
def daysBeforeYear (y : Int) : Int :=
  365 * (y - 1) + Int.fdiv (y - 1) 4 - Int.fdiv (y - 1) 100 + Int.fdiv (y - 1) 400

/-- Cumulative days in year y strictly before month m (for valid months). -/
def daysBeforeMonth (y m : Int) : Int :=
  (if m = 1 then 0 else if m = 2 then 31 else if m = 3 then 59
   else if m = 4 then 90 else if m = 5 then 120 else if m = 6 then 151
   else if m = 7 then 181 else if m = 8 then 212 else if m = 9 then 243
   else if m = 10 then 273 else if m = 11 then 304 else 334)
  + (if 2 < m ∧ isLeap y then 1 else 0)

/-- Proleptic Gregorian ordinal of a date (day count with day 1 of year 1
mapping to 1), giving the `.days` of a pandas timestamp difference. -/
def toOrdinal (d : Date) : Int :=
  daysBeforeYear d.year + daysBeforeMonth d.year d.month + d.day

/-- Python round to nearest with ties to even, applied to n/30. -/
def pyRound30 (n : Int) : Int :=
  if Int.emod n 30 < 15 then Int.fdiv n 30
  else if 15 < Int.emod n 30 then Int.fdiv n 30 + 1
  else if Int.emod (Int.fdiv n 30) 2 = 0 then Int.fdiv n 30 else Int.fdiv n 30 + 1

/-- The helper of calculate_kpis lines 26-31: approximate month difference as
the day difference divided by 30 and rounded, None when either date is
absent. -/
def get_approx_months_diff (later earlier : Option Date) : Option Int :=
  match later, earlier with
  | some l, some e => some (pyRound30 (toOrdinal l - toOrdinal e))
  | _, _ => none

/-- A date whose month component is in calendar range. -/
def monthOk (d : Date) : Prop := 1 ≤ d.month ∧ d.month ≤ 12

instance (d : Date) : Decidable (monthOk d) := by
  unfold monthOk; infer_instance

/-- Adding n calendar months to a date with end-of-month clamping, written
through the linear month index.  This is the notion of month stepping used to
express the specification reading of elapsed whole calendar months. -/
def addMonthsClamped (d : Date) (n : Nat) : Date :=
  Date.mk (((monthIdx d + (n : Int)).toNat / 12 : Nat) : Int)
    ((((monthIdx d + (n : Int)).toNat % 12 : Nat) : Int) + 1)
    (min d.day (daysInMonth (((monthIdx d + (n : Int)).toNat / 12 : Nat) : Int)
      ((((monthIdx d + (n : Int)).toNat % 12 : Nat) : Int) + 1)))

/-- The specification reading of the month KPI, stated in the words of the
spec: the elapsed whole calendar months from e to l, i.e. the largest n such
that stepping e forward by n calendar months does not pass l. -/
def wholeCalendarMonths (e l : Date) : Nat :=
  Nat.findGreatest (fun n => l.ltb (addMonthsClamped e n) = false)
    ((monthIdx l - monthIdx e).toNat + 1)

/-- A raw CSV cell for a date-like column: either empty/NaN or a text
value. -/
inductive RawCell
  | blank
  | text (s : String)
deriving DecidableEq

/-- A value held by a data-frame cell: still-raw input, a datetime column
entry (NaT as none), or a numeric KPI column entry (None/NaN as none). -/
inductive Cell
  | raw (c : RawCell)
  | date (d : Option Date)
  | num (n : Option Int)
deriving DecidableEq

/-- Cell of a row at an index, with the pandas NaN default for out of
range. -/
def cellD (r : List Cell) (i : Nat) : Cell := r.getD i (Cell.raw RawCell.blank)

/-- Read a datetime cell; non-datetime content reads as absent. -/
def dateAt (r : List Cell) (i : Nat) : Option Date :=
  match cellD r i with
  | Cell.date d => d
  | _ => none

/-- Read a numeric KPI cell; non-numeric content reads as absent. -/
def numAt (r : List Cell) (i : Nat) : Option Int :=
  match cellD r i with
  | Cell.num n => n
  | _ => none

/-- Decimal evaluation of a strptime numeric field: all characters must be
digits. -/
def digitsAcc : List Char → Nat → Option Nat
  | [], acc => some acc
  | c :: t, acc =>
    if 48 ≤ c.toNat ∧ c.toNat ≤ 57 then digitsAcc t (acc * 10 + (c.toNat - 48))
    else none

/-- A nonempty all-digit field as a number. -/
def toNatDigits (cs : List Char) : Option Nat :=
  match cs with
  | [] => none
  | _ => digitsAcc cs 0

/-- Split a character list at slash separators. -/
def splitSlash : List Char → List (List Char)
  | [] => [[]]
  | c :: cs =>
    if c = '/' then [] :: splitSlash cs
    else
      match splitSlash cs with
      | [] => [[c]]
      | g :: gs => (c :: g) :: gs

/-- Strict parser for the fixed day/month/Year layout used by
calculate_kpis (to_datetime with format percent-d slash percent-m slash
percent-Y): three slash-separated decimal fields forming a real calendar
date. -/
def parseFixedFmt (c : RawCell) : Option Date :=
  match c with
  | RawCell.blank => none
  | RawCell.text s =>
    match (splitSlash s.toList).map toNatDigits with
    | [some d, some m, some y] =>
      if 1 ≤ m ∧ m ≤ 12 ∧ 1 ≤ d ∧ (d : Int) ≤ daysInMonth (y : Int) (m : Int)
      then some (Date.mk (y : Int) (m : Int) (d : Int)) else none
    | _ => none

/-- Column conversion of calculate_kpis line 24: to_datetime with the fixed
layout and errors coerced; on an already-datetime entry it is the
identity. -/
def toDatetimeFixedCell : Cell → Cell
  | Cell.raw c => Cell.date (parseFixedFmt c)
  | Cell.date d => Cell.date d
  | Cell.num _ => Cell.date none

/-- Column conversion of transform_data line 48: the lenient to_datetime
with errors coerced.  On an already-datetime entry (the only case arising in
the composed pipeline) it is the identity; on raw text it applies the
lenient parser, abstract here. -/
def toDatetimeLenientCell (lenient : RawCell → Option Date) : Cell → Cell
  | Cell.raw c => Cell.date (lenient c)
  | Cell.date d => Cell.date d
  | Cell.num _ => Cell.date none

/-- A data frame: named columns over row-major cells. -/
structure Frame where
  header : List String
  rows : List (List Cell)
deriving DecidableEq

/-- Position of a column name in a header (first occurrence), none when the
column is missing (the pandas KeyError case). -/
def colIdx : List String → String → Option Nat
  | [], _ => none
  | h :: t, c => if h = c then some 0 else (colIdx t c).map (fun i => i + 1)

/-- Replace column i of every row by a function of its current value. -/
def mapColRows (rows : List (List Cell)) (i : Nat) (g : Cell → Cell) : List (List Cell) :=
  rows.map (fun r => r.set i (g (cellD r i)))

/-- Header after a column assignment: unchanged when the name exists,
extended at the end when it is new. -/
def setColHeader (h : List String) (name : String) : List String :=
  match colIdx h name with
  | some _ => h
  | none => h ++ [name]

/-- Column assignment data[name] = vals: overwrite in place when the column
exists, append a new column otherwise. -/
def setColRows (h : List String) (rows : List (List Cell)) (name : String)
    (vals : List Cell) : Frame :=
  match colIdx h name with
  | some i => Frame.mk h (List.zipWith (fun r v => r.set i v) rows vals)
  | none => Frame.mk (h ++ [name]) (List.zipWith (fun r v => r ++ [v]) rows vals)

/-- Column assignment on a frame. -/
def Frame.setCol (f : Frame) (name : String) (vals : List Cell) : Frame :=
  setColRows f.header f.rows name vals

/-- drop_duplicates: keep the first occurrence of every distinct row. -/
def dedupRows : List (List Cell) → List (List Cell) → List (List Cell)
  | [], _ => []
  | r :: rs, seen => if r ∈ seen then dedupRows rs seen else r :: dedupRows rs (r :: seen)

/-- Column names of the source table. -/
def ccName : String := "Fecha CartaConsulta"

def apName : String := "FechaAprobacion"

def vgName : String := "FechaVigencia"

def elName : String := "FechaElegibilidad"

def pdName : String := "FechadePrimerDesembolso"

def idName : String := "IDEtapa"

def noName : String := "NoEtapa"

def paisName : String := "Pais"

def gopName : String := "EstadoColumnaGOP"

def aliasName : String := "Alias"

def secName : String := "Sector"

def subName : String := "SubSector"

def kApName : String := "KPI Aprobacion"

def kVgName : String := "KPI Vigencia"

def kElName : String := "KPI Elegibilidad"

def kPdName : String := "KPI Primer Desembolso"

/-- The identifier and milestone columns the pipeline requires. -/
def requiredColumns : List String :=
  [idName, noName, paisName, gopName, aliasName, secName, subName,
   ccName, apName, vgName, elName, pdName]

/-- Parse the five date columns in source order. -/
def parse5 (g : Cell → Cell) (rows : List (List Cell)) (i1 i2 i3 i4 i5 : Nat) :
    List (List Cell) :=
  mapColRows (mapColRows (mapColRows (mapColRows (mapColRows rows i1 g) i2 g) i3 g) i4 g) i5 g

/-- Assign the four KPI columns, each applied row-wise to its milestone
pair, in the order of the source (lines 34-37 and 50-53). -/
def addKpi4 (kf : Option Date → Option Date → Option Int) (f : Frame)
    (i1 i2 i3 i4 i5 : Nat) : Frame :=
  let g1 := Frame.setCol f kApName (f.rows.map (fun r => Cell.num (kf (dateAt r i2) (dateAt r i1))))
  let g2 := Frame.setCol g1 kVgName (g1.rows.map (fun r => Cell.num (kf (dateAt r i3) (dateAt r i2))))
  let g3 := Frame.setCol g2 kElName (g2.rows.map (fun r => Cell.num (kf (dateAt r i4) (dateAt r i3))))
  Frame.setCol g3 kPdName (g3.rows.map (fun r => Cell.num (kf (dateAt r i5) (dateAt r i4))))

/-- calculate_kpis (lines 21-39): parse the five date columns with the fixed
layout (KeyError when one is missing), then assign the four approximate
days/30 KPI columns. -/
def calculate_kpis (f : Frame) : Except String Frame :=
  match colIdx f.header ccName, colIdx f.header apName, colIdx f.header vgName,
      colIdx f.header elName, colIdx f.header pdName with
  | some i1, some i2, some i3, some i4, some i5 =>
    Except.ok (addKpi4 get_approx_months_diff
      (Frame.mk f.header (parse5 toDatetimeFixedCell f.rows i1 i2 i3 i4 i5)) i1 i2 i3 i4 i5)
  | _, _, _, _, _ => Except.error "KeyError: missing date column"

/-- One melted row before year attribution: the twelve id_vars cells, the
KPI column name (Estaciones) and the KPI value. -/
structure MeltRow where
  idCells : List Cell
  estaciones : String
  kpi : Option Int
deriving DecidableEq

/-- One output row, in the column order selected at line 77. -/
structure Obs where
  idEtapa : Cell
  estaciones : String
  kpi : Option Int
  anio : Option Int
  noEtapa : Cell
  pais : Cell
  estadoGOP : Cell
  aliasCol : Cell
  sector : Cell
  subSector : Cell
deriving DecidableEq

/-- Final projection of a melted row plus its year to an output row. -/
def mkObs (m : MeltRow) (anio : Option Int) : Obs :=
  Obs.mk (cellD m.idCells 0) m.estaciones m.kpi anio (cellD m.idCells 1)
    (cellD m.idCells 2) (cellD m.idCells 3) (cellD m.idCells 4)
    (cellD m.idCells 5) (cellD m.idCells 6)

/-- The filter of line 75: keep a KPI that is present and nonnegative. -/
def keepObs : Option Int → Bool
  | some v => decide (0 ≤ v)
  | none => false

/-- Year lookup of line 72: the year of the mapped milestone date taken from
the FIRST row of the deduplicated frame, whatever row the observation came
from. -/
def firstRowYear (rows : List (List Cell)) (i : Nat) : Option Int :=
  match rows.head? with
  | some r0 => (dateAt r0 i).map Date.year
  | none => none

/-- year_mapping of lines 64-69 resolved to the column position of the later
milestone of each KPI. -/
def yearColIdx (est : String) (i2 i3 i4 i5 : Nat) : Nat :=
  if est = kApName then i2 else if est = kVgName then i3
  else if est = kElName then i4 else i5

/-- One melt block: every row contributes one observation for the given KPI
column, carrying the id_vars cells; the KPI value is the one assigned at
lines 50-53 for that row. -/
def meltBlock (rows : List (List Cell)) (ids : List Nat) (name : String)
    (ilat iear : Nat) : List MeltRow :=
  rows.map (fun r =>
    MeltRow.mk (ids.map (fun j => cellD r j)) name (kpiMonths (dateAt r ilat) (dateAt r iear)))

/-- Melt (KPI blocks in value_vars order), year attribution from the first
row, filter, and final column selection (lines 56-77). -/
def meltYearFilter (rows : List (List Cell)) (ids : List Nat)
    (i1 i2 i3 i4 i5 : Nat) : List Obs :=
  ((meltBlock rows ids kApName i2 i1 ++ meltBlock rows ids kVgName i3 i2 ++
    meltBlock rows ids kElName i4 i3 ++ meltBlock rows ids kPdName i5 i4).map
    (fun m => mkObs m (firstRowYear rows (yearColIdx m.estaciones i2 i3 i4 i5)))).filter
    (fun o => keepObs o.kpi)

/-- Header after the four KPI column assignments. -/
def kpiHeader (h : List String) : List String :=
  setColHeader (setColHeader (setColHeader (setColHeader h kApName) kVgName) kElName) kPdName

/-- transform_data (lines 41-77): deduplicate, re-run to_datetime leniently
over the five date columns, assign the relativedelta KPI columns, melt with
the twelve id_vars (KeyError when one is missing), attribute years from the
first row, filter null and negative KPIs and select the output columns. -/
def transform_data (lenient : RawCell → Option Date) (f0 : Frame) :
    Except String (List Obs) :=
  match colIdx f0.header ccName, colIdx f0.header apName, colIdx f0.header vgName,
      colIdx f0.header elName, colIdx f0.header pdName with
  | some i1, some i2, some i3, some i4, some i5 =>
    match colIdx (kpiHeader f0.header) idName, colIdx (kpiHeader f0.header) noName,
        colIdx (kpiHeader f0.header) paisName, colIdx (kpiHeader f0.header) gopName,
        colIdx (kpiHeader f0.header) aliasName, colIdx (kpiHeader f0.header) secName,
        colIdx (kpiHeader f0.header) subName with
    | some j1, some j2, some j3, some j4, some j5, some j6, some j7 =>
      Except.ok (meltYearFilter
        (parse5 (toDatetimeLenientCell lenient) (dedupRows f0.rows []) i1 i2 i3 i4 i5)
        [j1, j2, j3, j4, j5, j6, j7, i1, i2, i3, i4, i5] i1 i2 i3 i4 i5)
    | _, _, _, _, _, _, _ => Except.error "KeyError: melt id_vars missing"
  | _, _, _, _, _ => Except.error "KeyError: missing date column"

/-- The full pipeline as composed by main (line 99-100): calculate_kpis then
transform_data on its result. -/
def runPipeline (lenient : RawCell → Option Date) (f : Frame) :
    Except String (List Obs) :=
  match calculate_kpis f with
  | Except.ok f1 => transform_data lenient f1
  | Except.error msg => Except.error msg

/-- One column parse step: replace the cell at position i by its converted
value (a single data[col] = to_datetime(data[col], ...) on one row). -/
def parse1 (g : Cell → Cell) (i : Nat) (r : List Cell) : List Cell :=
  r.set i (g (cellD r i))

/-- Row-wise form of the five column parses. -/
def parseRow (g : Cell → Cell) (i1 i2 i3 i4 i5 : Nat) (r : List Cell) : List Cell :=
  parse1 g i5 (parse1 g i4 (parse1 g i3 (parse1 g i2 (parse1 g i1 r))))

/-- A rectangular frame: every row has exactly one cell per header column
(always true of a pandas frame). -/
def Rect (f : Frame) : Prop := ∀ r ∈ f.rows, r.length = f.header.length

/-- The Date Normalizer as the specification words it: the fixed layout is
attempted first and, on failure, a lenient parse is attempted on the original
raw value; only a value failing both becomes absent. -/
def specNormalize (lenient : RawCell → Option Date) (c : RawCell) : Option Date :=
  match parseFixedFmt c with
  | some d => some d
  | none => lenient c

/-- The Date Normalizer as the pipeline actually composes it: the fixed parse
of calculate_kpis coerces failures to absent, and the lenient to_datetime of
transform_data then runs on the already-coerced cell. -/
def pipelineNormalize (lenient : RawCell → Option Date) (c : RawCell) : Option Date :=
  match toDatetimeLenientCell lenient (toDatetimeFixedCell (Cell.raw c)) with
  | Cell.date d => d
  | _ => none

/-- A lenient parser with no opinion; used to run the pipeline on concrete
tables (the lenient stage never sees a raw value there). -/
def lenNone : RawCell → Option Date := fun _ => none

/-- A lenient parser that recognises the ISO-layout text 2020-04-10, which
the fixed day/month/Year layout rejects. -/
def lenISO : RawCell → Option Date := fun c =>
  match c with
  | RawCell.text "2020-04-10" => some (Date.mk 2020 4 10)
  | _ => none

/-- The source table header, with all required columns. -/
def hdr0 : List String :=
  [idName, noName, paisName, gopName, aliasName, secName, subName,
   ccName, apName, vgName, elName, pdName]

/-- A text cell. -/
def sCell (s : String) : Cell := Cell.raw (RawCell.text s)

/-- An empty cell. -/
def bCell : Cell := Cell.raw RawCell.blank

/-- A stage row with fixed metadata and the five milestone date cells. -/
def mkStageRow (idv cc ap vg el pd : Cell) : List Cell :=
  [idv, sCell "1", sCell "AA", sCell "Activo", sCell "a", sCell "S", sCell "SS",
   cc, ap, vg, el, pd]

/-- Two stages whose approval dates fall in different years (2020 and
2021). -/
def frameC1 : Frame := Frame.mk hdr0
  [mkStageRow (sCell "P1") (sCell "10/01/2020") (sCell "01/05/2020") bCell bCell bCell,
   mkStageRow (sCell "P2") (sCell "10/01/2021") (sCell "15/03/2021") bCell bCell bCell]

/-- A stage lacking the approval date but with effectiveness, eligibility and
first-disbursement dates present. -/
def frameC4 : Frame := Frame.mk hdr0
  [mkStageRow (sCell "P1") (sCell "10/01/2021") bCell (sCell "01/01/2021")
    (sCell "01/03/2021") (sCell "01/05/2021")]

/-- A stage whose first disbursement predates its eligibility (negative
duration). -/
def frameNeg : Frame := Frame.mk hdr0
  [mkStageRow (sCell "P1") bCell bCell bCell (sCell "01/06/2021") (sCell "01/05/2021")]

/-- A stage whose eligibility and first disbursement coincide (zero
duration). -/
def frameZero : Frame := Frame.mk hdr0
  [mkStageRow (sCell "P1") bCell bCell bCell (sCell "01/06/2021") (sCell "01/06/2021")]

/-- Two rows that differ only in the textual spelling of the consultation
date (1/3/2020 versus 01/03/2020), hence in a raw field, but normalise to
identical rows. -/
def frameDup : Frame := Frame.mk hdr0
  [mkStageRow (sCell "P1") (sCell "1/3/2020") (sCell "01/05/2020") bCell bCell bCell,
   mkStageRow (sCell "P1") (sCell "01/03/2020") (sCell "01/05/2020") bCell bCell bCell]

/-- The first row of frameDup alone. -/
def frameSingle : Frame := Frame.mk hdr0
  [mkStageRow (sCell "P1") (sCell "1/3/2020") (sCell "01/05/2020") bCell bCell bCell]

/-- A frame whose header lacks the approval column. -/
def frameMissing : Frame := Frame.mk
  [idName, noName, paisName, gopName, aliasName, secName, subName,
   ccName, vgName, elName, pdName]
  [[sCell "P1", sCell "1", sCell "AA", sCell "Activo", sCell "a", sCell "S", sCell "SS",
    sCell "10/01/2020", bCell, bCell, bCell]]

/-- Fixed metadata cells shared by the concrete stage rows. -/
def metaObs (idv : String) (est : String) (k : Option Int) (y : Option Int) : Obs :=
  Obs.mk (sCell idv) est k y (sCell "1") (sCell "AA") (sCell "Activo") (sCell "a")
    (sCell "S") (sCell "SS")

/-- The two observations the pipeline emits on frameC1. -/
def outC1 : List Obs := [metaObs "P1" kApName (some 3) (some 2020),
  metaObs "P2" kApName (some 2) (some 2020)]

/-- The two observations the pipeline emits on frameC4. -/
def outC4 : List Obs := [metaObs "P1" kElName (some 2) (some 2021),
  metaObs "P1" kPdName (some 2) (some 2021)]

/-- The single observation the pipeline emits on frameZero. -/
def outZero : List Obs := [metaObs "P1" kPdName (some 0) (some 2021)]

-- ### Theorems ###

/-- ltb unfolded to the lexicographic order on components. -/
theorem ltb_iff (a b : Date) :
    a.ltb b = true ↔
      (a.year < b.year ∨ (a.year = b.year ∧
        (a.month < b.month ∨ (a.month = b.month ∧ a.day < b.day)))) := by
  unfold Date.ltb
  split_ifs with h1 h2 h3 h4 <;> simp <;> omega

/-- The two components of setMonths recombine to the input total. -/
theorem setMonths_sum (t : Int) : 12 * (setMonths t).1 + (setMonths t).2 = t := by
  unfold setMonths
  split_ifs with h1 h2 <;> simp only <;>
  · have hd := Nat.div_add_mod t.natAbs 12
    omega

/-- The months component of setMonths has absolute value at most 11. -/
theorem setMonths_natAbs_le (t : Int) : ((setMonths t).2).natAbs ≤ 11 := by
  unfold setMonths
  split_ifs with h1 h2 <;> simp only
  · have : t.natAbs % 12 < 12 := Nat.mod_lt _ (by omega)
    omega
  · have : t.natAbs % 12 < 12 := Nat.mod_lt _ (by omega)
    omega
  · omega

/-- The single wrap step preserves the linear month index. -/
theorem normYM_idx (y m : Int) : 12 * normY y m + normM m = 12 * y + m := by
  unfold normY normM
  split_ifs <;> omega

/-- Month index of radd: the raw total is added exactly. -/
theorem monthIdx_radd (d : Date) (t : Int) : monthIdx (radd d t) = monthIdx d + t := by
  have hs := setMonths_sum t
  unfold radd plusDelta monthIdx
  simp only
  have hn := normYM_idx (d.year + (setMonths t).1) (d.month + (setMonths t).2)
  omega

/-- The wrapped month is in calendar range whenever its argument is within
one wrap of range. -/
theorem normM_range (m : Int) (h1 : -10 ≤ m) (h2 : m ≤ 23) :
    1 ≤ normM m ∧ normM m ≤ 12 := by
  unfold normM
  split_ifs <;> omega

/-- radd of a month-valid date is month-valid. -/
theorem monthOk_radd (d : Date) (t : Int) (h : monthOk d) : monthOk (radd d t) := by
  have hb := setMonths_natAbs_le t
  obtain ⟨h1, h2⟩ := h
  have hr := normM_range (d.month + (setMonths t).2) (by omega) (by omega)
  unfold radd plusDelta monthOk
  simp only
  omega

/-- Between month-valid dates, a strictly smaller month index forces strict
date order. -/
theorem ltb_of_monthIdx_lt (a b : Date) (ha : monthOk a) (hb : monthOk b)
    (h : monthIdx a < monthIdx b) : a.ltb b = true := by
  rw [ltb_iff]
  unfold monthIdx at h
  obtain ⟨ha1, ha2⟩ := ha
  obtain ⟨hb1, hb2⟩ := hb
  omega

/-- Strict date order is asymmetric. -/
theorem ltb_asymm (a b : Date) (h : a.ltb b = true) : b.ltb a = false := by
  rw [ltb_iff] at h
  rw [Bool.eq_false_iff]
  intro hc
  rw [ltb_iff] at hc
  omega

/-- A date is never strictly below itself. -/
theorem ltb_irrefl (a : Date) : a.ltb a = false := by
  rw [Bool.eq_false_iff]
  intro hc
  rw [ltb_iff] at hc
  omega

/-- Month-valid dates with equal month index share year and month. -/
theorem monthIdx_inj (a b : Date) (ha : monthOk a) (hb : monthOk b)
    (h : monthIdx a = monthIdx b) : a.year = b.year ∧ a.month = b.month := by
  unfold monthIdx at h
  obtain ⟨ha1, ha2⟩ := ha
  obtain ⟨hb1, hb2⟩ := hb
  omega

/-- The day of radd never exceeds the day of the base date (end-of-month
clamping only shrinks it). -/
theorem radd_day_le (d : Date) (t : Int) : (radd d t).day ≤ d.day := by
  unfold radd plusDelta
  exact min_le_left _ _

/-- One unfolding step of the correction loop. -/
theorem adjustLoop_succ (fuel : Nat) (dt1 dt2 : Date) (t : Int) :
    adjustLoop (fuel + 1) dt1 dt2 t =
      if dt1.ltb dt2 then
        (if (radd dt2 t).ltb dt1 then adjustLoop fuel dt1 dt2 (t + 1) else t)
      else
        (if dt1.ltb (radd dt2 t) then adjustLoop fuel dt1 dt2 (t - 1) else t) := rfl

/-- For month-valid dates with e ≤ l, the correction loop performs at most a
single downward step from the naive month-index difference. -/
theorem rdTotal_of_not_lt (l e : Date) (hl : monthOk l) (he : monthOk e)
    (hle : l.ltb e = false) :
    rdTotal l e =
      if l.ltb (radd e (monthIdx l - monthIdx e)) = true
      then monthIdx l - monthIdx e - 1 else monthIdx l - monthIdx e := by
  set t0 := monthIdx l - monthIdx e with ht0
  unfold rdTotal
  rw [show (1000 : Nat) = 999 + 1 from rfl, adjustLoop_succ, hle]
  simp only [Bool.false_eq_true, if_false]
  by_cases h : l.ltb (radd e t0) = true
  · simp only [← ht0, h, if_true]
    rw [show (999 : Nat) = 998 + 1 from rfl, adjustLoop_succ, hle]
    simp only [Bool.false_eq_true, if_false]
    have hlt : monthIdx (radd e (t0 - 1)) < monthIdx l := by
      rw [monthIdx_radd]; omega
    have hg : l.ltb (radd e (t0 - 1)) = false :=
      ltb_asymm _ _ (ltb_of_monthIdx_lt _ _ (monthOk_radd e _ he) hl hlt)
    rw [hg]
    simp
  · simp only [← ht0]
    rw [if_neg h, if_neg h]

/-- Bracketing of the relativedelta raw month total for e ≤ l: it is
nonnegative, within one of the naive index difference, and it is the largest
total whose reconstruction does not pass l. -/
theorem rdTotal_bracket (l e : Date) (hl : monthOk l) (he : monthOk e)
    (hle : l.ltb e = false) :
    0 ≤ rdTotal l e ∧
    monthIdx l - monthIdx e - 1 ≤ rdTotal l e ∧
    rdTotal l e ≤ monthIdx l - monthIdx e ∧
    l.ltb (radd e (rdTotal l e)) = false ∧
    l.ltb (radd e (rdTotal l e + 1)) = true := by
  set t0 := monthIdx l - monthIdx e with ht0
  have hnle : ¬ (l.ltb e = true) := by simp [hle]
  rw [ltb_iff] at hnle
  have hidx : monthIdx e ≤ monthIdx l := by
    by_contra hc
    push_neg at hc
    have := ltb_of_monthIdx_lt l e hl he hc
    rw [hle] at this
    simp at this
  rw [rdTotal_of_not_lt l e hl he hle, ← ht0]
  by_cases h : l.ltb (radd e t0) = true
  · have hstrict : monthIdx e < monthIdx l := by
      rcases eq_or_lt_of_le hidx with heq | hlt2
      · exfalso
        have ht00 : t0 = 0 := by omega
        have hio : monthIdx (radd e t0) = monthIdx l := by rw [monthIdx_radd]; omega
        have hok := monthOk_radd e t0 he
        have hym := monthIdx_inj _ _ hok hl hio
        have hym2 := monthIdx_inj e l he hl heq
        have hday := radd_day_le e t0
        rw [ltb_iff] at h
        omega
      · exact hlt2
    rw [if_pos h]
    have hlt : monthIdx (radd e (t0 - 1)) < monthIdx l := by
      rw [monthIdx_radd]; omega
    have hg : l.ltb (radd e (t0 - 1)) = false :=
      ltb_asymm _ _ (ltb_of_monthIdx_lt _ _ (monthOk_radd e _ he) hl hlt)
    refine ⟨by omega, by omega, by omega, hg, ?_⟩
    rw [show t0 - 1 + 1 = t0 by ring]
    exact h
  · rw [if_neg h]
    have hP : l.ltb (radd e t0) = false := by
      revert h; cases l.ltb (radd e t0) <;> simp
    have hS : l.ltb (radd e (t0 + 1)) = true := by
      apply ltb_of_monthIdx_lt l _ hl (monthOk_radd e _ he)
      rw [monthIdx_radd]; omega
    exact ⟨by omega, by omega, by omega, hP, hS⟩

/-- Month index of clamped month addition. -/
theorem monthIdx_addMonthsClamped (d : Date) (n : Nat) (h0 : 0 ≤ monthIdx d) :
    monthIdx (addMonthsClamped d n) = monthIdx d + n := by
  unfold monthIdx at h0
  unfold addMonthsClamped monthIdx
  simp only
  have hk := Nat.div_add_mod (12 * d.year + d.month - 1 + (n : Int)).toNat 12
  omega

/-- Clamped month addition is month-valid. -/
theorem monthOk_addMonthsClamped (d : Date) (n : Nat) :
    monthOk (addMonthsClamped d n) := by
  unfold addMonthsClamped monthOk
  simp only
  have : (monthIdx d + (n : Int)).toNat % 12 < 12 := Nat.mod_lt _ (by omega)
  omega

/-- Component-wise equality of dates. -/
theorem date_eq (a b : Date) (h1 : a.year = b.year) (h2 : a.month = b.month)
    (h3 : a.day = b.day) : a = b := by
  cases a; cases b; simp_all

/-- For month-valid dates with nonnegative index, clamped month addition
agrees with the relativedelta reconstruction radd. -/
theorem addMonthsClamped_eq_radd (d : Date) (n : Nat) (hd : monthOk d)
    (h0 : 0 ≤ monthIdx d) : addMonthsClamped d n = radd d (n : Int) := by
  have hidx : monthIdx (addMonthsClamped d n) = monthIdx (radd d (n : Int)) := by
    rw [monthIdx_addMonthsClamped d n h0, monthIdx_radd]
  have hym := monthIdx_inj _ _ (monthOk_addMonthsClamped d n) (monthOk_radd d _ hd) hidx
  apply date_eq _ _ hym.1 hym.2
  have hA : (addMonthsClamped d n).day =
      min d.day (daysInMonth (addMonthsClamped d n).year (addMonthsClamped d n).month) := rfl
  have hR : (radd d (n : Int)).day =
      min d.day (daysInMonth (radd d (n : Int)).year (radd d (n : Int)).month) := rfl
  rw [hA, hR, hym.1, hym.2]

/-- The months component of setMonths of a nonnegative total is the total
reduced mod 12. -/
theorem setMonths_nonneg_val (t : Int) (h : 0 ≤ t) :
    (setMonths t).2 = ((t.toNat % 12 : Nat) : Int) := by
  unfold setMonths
  split_ifs with h1 h2
  all_goals simp only
  all_goals omega

/-- The raw relativedelta total for e ≤ l equals the elapsed whole calendar
months of the specification. -/
theorem rdTotal_eq_wholeCalendarMonths (e l : Date) (he : monthOk e) (hl : monthOk l)
    (hy : 1 ≤ e.year) (hle : l.ltb e = false) :
    wholeCalendarMonths e l = (rdTotal l e).toNat := by
  have h0e : 0 ≤ monthIdx e := by
    unfold monthIdx; obtain ⟨hm1, hm2⟩ := he; omega
  obtain ⟨ht0, hlo, hhi, hP, hS⟩ := rdTotal_bracket l e hl he hle
  unfold wholeCalendarMonths
  rw [Nat.findGreatest_eq_iff]
  refine ⟨by omega, fun _ => ?_, fun n hn hnb => ?_⟩
  · rw [addMonthsClamped_eq_radd e _ he h0e,
      show (((rdTotal l e).toNat : Int)) = rdTotal l e by omega, hP]
  · rw [addMonthsClamped_eq_radd e _ he h0e]
    rcases eq_or_lt_of_le (show (rdTotal l e) + 1 ≤ (n : Int) by omega) with heq | hgt
    · rw [← heq, hS]
      simp
    · have : l.ltb (radd e (n : Int)) = true := by
        apply ltb_of_monthIdx_lt l _ hl (monthOk_radd e _ he)
        rw [monthIdx_radd]
        omega
      rw [this]
      simp

/-- For month-valid dates e ≤ l (year at least 1), the KPI computed by
transform_data equals the elapsed whole calendar months reduced mod 12: the
years component of the calendar difference is discarded. -/
theorem kpiMonths_eq_wholeMonths_mod (e l : Date) (he : monthOk e) (hl : monthOk l)
    (hy : 1 ≤ e.year) (hle : l.ltb e = false) :
    kpiMonths (some l) (some e) = some ((wholeCalendarMonths e l % 12 : Nat) : Int) := by
  have h0 : 0 ≤ rdTotal l e := (rdTotal_bracket l e hl he hle).1
  show some (relativedeltaMonths l e) = _
  unfold relativedeltaMonths
  rw [setMonths_nonneg_val _ h0, rdTotal_eq_wholeCalendarMonths e l he hl hy hle]

/-- Zipping a list with a mapped copy of itself is a map. -/
theorem zipWith_self_map {α β γ : Type} (f : α → β → γ) (g : α → β) (l : List α) :
    List.zipWith f l (l.map g) = l.map (fun x => f x (g x)) := by
  induction l with
  | nil => rfl
  | cons x t ih => simp [ih]

/-- getD below the length of the left list ignores an appended tail. -/
theorem getD_append_left {α : Type} (l e : List α) (d : α) (i : Nat)
    (h : i < l.length) : (l ++ e).getD i d = l.getD i d := by
  rw [List.getD_eq_getElem?_getD, List.getD_eq_getElem?_getD, List.getElem?_append,
    if_pos h]

/-- getD at the written position after a set within bounds. -/
theorem getD_set_self {α : Type} (l : List α) (i : Nat) (v d : α)
    (h : i < l.length) : (l.set i v).getD i d = v := by
  rw [List.getD_eq_getElem?_getD, List.getElem?_set_self h]
  rfl

/-- getD away from the written position after a set. -/
theorem getD_set_ne {α : Type} (l : List α) (i j : Nat) (v d : α)
    (h : i ≠ j) : (l.set j v).getD i d = l.getD i d := by
  rw [List.getD_eq_getElem?_getD, List.getD_eq_getElem?_getD,
    List.getElem?_set_ne (Ne.symm h)]

/-- A column position exists exactly when the name occurs in the header. -/
theorem colIdx_isSome_iff (hs : List String) (c : String) :
    (∃ i, colIdx hs c = some i) ↔ c ∈ hs := by
  induction hs with
  | nil => simp [colIdx]
  | cons hd t ih =>
    by_cases he : hd = c
    · simp [colIdx, he]
    · simp only [colIdx, if_neg he, List.mem_cons]
      constructor
      · rintro ⟨i, hi⟩
        rcases Option.map_eq_some'.mp hi with ⟨j, hj, _⟩
        exact Or.inr (ih.mp ⟨j, hj⟩)
      · rintro (hc | hc)
        · exact absurd hc.symm he
        · rcases ih.mpr hc with ⟨j, hj⟩
          exact ⟨j + 1, by rw [hj]; rfl⟩

/-- The header name at a resolved column position is the requested name, and
the position is within the header. -/
theorem colIdx_getD (hs : List String) (c : String) (i : Nat)
    (h : colIdx hs c = some i) : hs.getD i "" = c ∧ i < hs.length := by
  induction hs generalizing i with
  | nil => simp [colIdx] at h
  | cons hd t ih =>
    by_cases he : hd = c
    · rw [colIdx, if_pos he] at h
      injection h with h
      subst h
      exact ⟨he, by simp⟩
    · rw [colIdx, if_neg he] at h
      rcases Option.map_eq_some'.mp h with ⟨j, hj, hji⟩
      rcases ih j hj with ⟨h1, h2⟩
      subst hji
      exact ⟨h1, by simpa using h2⟩

/-- Distinct names resolve to distinct column positions. -/
theorem colIdx_names_ne (hs : List String) (a b : String) (i j : Nat)
    (ha : colIdx hs a = some i) (hb : colIdx hs b = some j) (hne : a ≠ b) :
    i ≠ j := by
  intro he
  subst he
  exact hne ((colIdx_getD hs a i ha).1.symm.trans (colIdx_getD hs b i hb).1)

/-- A resolved column position survives extending the header on the right. -/
theorem colIdx_append_of_some (hs e : List String) (c : String) (i : Nat)
    (h : colIdx hs c = some i) : colIdx (hs ++ e) c = some i := by
  induction hs generalizing i with
  | nil => simp [colIdx] at h
  | cons hd t ih =>
    by_cases he : hd = c
    · rw [colIdx, if_pos he] at h
      simpa [colIdx, he] using h
    · rw [colIdx, if_neg he] at h
      rcases Option.map_eq_some'.mp h with ⟨j, hj, hji⟩
      subst hji
      rw [List.cons_append, colIdx, if_neg he, ih j hj]
      rfl

/-- A column assignment leaves the header unchanged or appends the new
name. -/
theorem setColHeader_cases (h : List String) (n : String) :
    setColHeader h n = h ∨ setColHeader h n = h ++ [n] := by
  unfold setColHeader
  cases colIdx h n <;> simp

/-- The assigned header is an extension of the original one. -/
theorem setColHeader_ext (h : List String) (n : String) :
    ∃ e, setColHeader h n = h ++ e := by
  rcases setColHeader_cases h n with hc | hc
  · exact ⟨[], by simp [hc]⟩
  · exact ⟨[n], hc⟩

/-- Membership in an assigned header. -/
theorem mem_setColHeader (h : List String) (n c : String) :
    c ∈ setColHeader h n ↔ c ∈ h ∨ c = n := by
  unfold setColHeader
  cases hc : colIdx h n with
  | some i =>
    simp only [iff_def]
    refine ⟨fun hm => Or.inl hm, fun hm => ?_⟩
    rcases hm with hm | hm
    · exact hm
    · subst hm
      exact (colIdx_isSome_iff h c).mp ⟨i, hc⟩
  | none => simp

/-- The KPI-extended header is an extension of the original one. -/
theorem kpiHeader_ext (h : List String) : ∃ e, kpiHeader h = h ++ e := by
  unfold kpiHeader
  obtain ⟨e1, h1⟩ := setColHeader_ext h kApName
  obtain ⟨e2, h2⟩ := setColHeader_ext (setColHeader h kApName) kVgName
  obtain ⟨e3, h3⟩ := setColHeader_ext (setColHeader (setColHeader h kApName) kVgName) kElName
  obtain ⟨e4, h4⟩ :=
    setColHeader_ext (setColHeader (setColHeader (setColHeader h kApName) kVgName) kElName) kPdName
  exact ⟨e1 ++ e2 ++ e3 ++ e4, by rw [h4, h3, h2, h1]; simp⟩

/-- Membership in the KPI-extended header. -/
theorem mem_kpiHeader (h : List String) (c : String) :
    c ∈ kpiHeader h ↔
      c ∈ h ∨ c = kApName ∨ c = kVgName ∨ c = kElName ∨ c = kPdName := by
  unfold kpiHeader
  rw [mem_setColHeader, mem_setColHeader, mem_setColHeader, mem_setColHeader]
  tauto

/-- The header produced by a column assignment. -/
theorem setColRows_header (h : List String) (rows : List (List Cell))
    (n : String) (vals : List Cell) :
    (setColRows h rows n vals).header = setColHeader h n := by
  unfold setColRows setColHeader
  cases colIdx h n <;> rfl

/-- A row already seen is dropped wherever it occurs later. -/
theorem dedupRows_drop (B C : List (List Cell)) (a : List Cell) :
    ∀ seen, a ∈ seen → dedupRows (B ++ a :: C) seen = dedupRows (B ++ C) seen := by
  induction B with
  | nil => intro seen ha; simp [dedupRows, ha]
  | cons b B ih =>
    intro seen ha
    by_cases hb : b ∈ seen
    · simp only [List.cons_append, dedupRows, if_pos hb]
      exact ih seen ha
    · simp only [List.cons_append, dedupRows, if_neg hb]
      exact congrArg (fun l => b :: l) (ih (b :: seen) (List.mem_cons_of_mem b ha))

/-- A second copy of a row contributes nothing to deduplication. -/
theorem dedupRows_dup (A B C : List (List Cell)) (a : List Cell) :
    ∀ seen, dedupRows (A ++ a :: (B ++ a :: C)) seen =
      dedupRows (A ++ a :: (B ++ C)) seen := by
  induction A with
  | nil =>
    intro seen
    by_cases ha : a ∈ seen
    · simp only [List.nil_append, dedupRows, if_pos ha]
      exact dedupRows_drop B C a seen ha
    · simp only [List.nil_append, dedupRows, if_neg ha]
      rw [dedupRows_drop B C a (a :: seen) (List.mem_cons_self a seen)]
  | cons x A ih =>
    intro seen
    by_cases hx : x ∈ seen
    · simp only [List.cons_append, dedupRows, if_pos hx]
      exact ih seen
    · simp only [List.cons_append, dedupRows, if_neg hx]
      exact congrArg (fun l => x :: l) (ih (x :: seen))

/-- Deduplication retains every row not previously seen. -/
theorem mem_dedupRows_of_mem (rows : List (List Cell)) (a : List Cell) :
    ∀ seen, a ∈ rows → a ∉ seen → a ∈ dedupRows rows seen := by
  induction rows with
  | nil => intro seen ha _; simp at ha
  | cons x t ih =>
    intro seen ha hs
    rcases List.mem_cons.mp ha with hax | hat
    · subst hax
      rw [dedupRows, if_neg hs]
      exact List.mem_cons_self a _
    · by_cases hx : x ∈ seen
      · rw [dedupRows, if_pos hx]
        exact ih seen hat hs
      · rw [dedupRows, if_neg hx]
        by_cases hax : a = x
        · subst hax
          exact List.mem_cons_self a _
        · exact List.mem_cons_of_mem x
            (ih (x :: seen) hat (by simp [hax, hs]))

/-- Deduplication only keeps rows of the input. -/
theorem mem_of_mem_dedupRows (rows : List (List Cell)) (a : List Cell) :
    ∀ seen, a ∈ dedupRows rows seen → a ∈ rows := by
  induction rows with
  | nil => intro seen ha; simp [dedupRows] at ha
  | cons x t ih =>
    intro seen ha
    by_cases hx : x ∈ seen
    · rw [dedupRows, if_pos hx] at ha
      exact List.mem_cons_of_mem x (ih seen ha)
    · rw [dedupRows, if_neg hx] at ha
      rcases List.mem_cons.mp ha with hax | hat
      · exact hax ▸ List.mem_cons_self x t
      · exact List.mem_cons_of_mem x (ih (x :: seen) hat)

/-- The filter of line 75 keeps exactly the present nonnegative values. -/
theorem keepObs_iff (k : Option Int) :
    keepObs k = true ↔ ∃ v, k = some v ∧ 0 ≤ v := by
  cases k with
  | none => simp [keepObs]
  | some v => simp [keepObs]

/-- Every emitted observation passes the filter and carries a KPI computed
from the two milestone dates of some retained row. -/
theorem mem_meltYearFilter (o : Obs) (rows : List (List Cell)) (ids : List Nat)
    (i1 i2 i3 i4 i5 : Nat) (h : o ∈ meltYearFilter rows ids i1 i2 i3 i4 i5) :
    keepObs o.kpi = true ∧
      ∃ r ∈ rows, ∃ a b : Nat, o.kpi = kpiMonths (dateAt r a) (dateAt r b) := by
  unfold meltYearFilter at h
  rw [List.mem_filter] at h
  obtain ⟨hm, hk⟩ := h
  refine ⟨hk, ?_⟩
  rw [List.mem_map] at hm
  obtain ⟨m, hmm, rfl⟩ := hm
  have hkpi : (mkObs m (firstRowYear rows (yearColIdx m.estaciones i2 i3 i4 i5))).kpi
      = m.kpi := rfl
  rw [hkpi]
  rcases List.mem_append.mp hmm with hb | hb
  · rcases List.mem_append.mp hb with hb2 | hb2
    · rcases List.mem_append.mp hb2 with hb3 | hb3
      · rcases List.mem_map.mp hb3 with ⟨r, hr, rfl⟩
        exact ⟨r, hr, i2, i1, rfl⟩
      · rcases List.mem_map.mp hb3 with ⟨r, hr, rfl⟩
        exact ⟨r, hr, i3, i2, rfl⟩
    · rcases List.mem_map.mp hb2 with ⟨r, hr, rfl⟩
      exact ⟨r, hr, i4, i3, rfl⟩
  · rcases List.mem_map.mp hb with ⟨r, hr, rfl⟩
    exact ⟨r, hr, i5, i4, rfl⟩

/-- Inversion of a successful calculate_kpis: all five date columns resolved
and the result is the parsed frame with the four approximate KPI columns. -/
theorem calculate_kpis_ok_inv (f f1 : Frame) (h : calculate_kpis f = Except.ok f1) :
    ∃ i1 i2 i3 i4 i5, colIdx f.header ccName = some i1 ∧
      colIdx f.header apName = some i2 ∧ colIdx f.header vgName = some i3 ∧
      colIdx f.header elName = some i4 ∧ colIdx f.header pdName = some i5 ∧
      f1 = addKpi4 get_approx_months_diff
        (Frame.mk f.header (parse5 toDatetimeFixedCell f.rows i1 i2 i3 i4 i5))
        i1 i2 i3 i4 i5 := by
  unfold calculate_kpis at h
  split at h
  · rename_i i1 i2 i3 i4 i5 h1 h2 h3 h4 h5
    injection h with h
    exact ⟨i1, i2, i3, i4, i5, h1, h2, h3, h4, h5, h.symm⟩
  · simp at h

/-- Inversion of a successful transform_data: the five date columns and the
seven melt identifier columns resolved, and the output is the melted,
year-attributed, filtered list. -/
theorem transform_data_ok_inv (lenient : RawCell → Option Date) (f0 : Frame)
    (out : List Obs) (h : transform_data lenient f0 = Except.ok out) :
    ∃ i1 i2 i3 i4 i5 j1 j2 j3 j4 j5 j6 j7,
      colIdx f0.header ccName = some i1 ∧ colIdx f0.header apName = some i2 ∧
      colIdx f0.header vgName = some i3 ∧ colIdx f0.header elName = some i4 ∧
      colIdx f0.header pdName = some i5 ∧
      colIdx (kpiHeader f0.header) idName = some j1 ∧
      colIdx (kpiHeader f0.header) noName = some j2 ∧
      colIdx (kpiHeader f0.header) paisName = some j3 ∧
      colIdx (kpiHeader f0.header) gopName = some j4 ∧
      colIdx (kpiHeader f0.header) aliasName = some j5 ∧
      colIdx (kpiHeader f0.header) secName = some j6 ∧
      colIdx (kpiHeader f0.header) subName = some j7 ∧
      out = meltYearFilter
        (parse5 (toDatetimeLenientCell lenient) (dedupRows f0.rows []) i1 i2 i3 i4 i5)
        [j1, j2, j3, j4, j5, j6, j7, i1, i2, i3, i4, i5] i1 i2 i3 i4 i5 := by
  unfold transform_data at h
  split at h
  · split at h
    · injection h with h
      subst h
      refine ⟨_, _, _, _, _, _, _, _, _, _, _, _,
        ?_, ?_, ?_, ?_, ?_, ?_, ?_, ?_, ?_, ?_, ?_, ?_, rfl⟩ <;> assumption
    · simp at h
  · simp at h

/-- Inversion of a successful pipeline run. -/
theorem runPipeline_ok_inv (lenient : RawCell → Option Date) (f : Frame)
    (out : List Obs) (h : runPipeline lenient f = Except.ok out) :
    ∃ f1, calculate_kpis f = Except.ok f1 ∧
      transform_data lenient f1 = Except.ok out := by
  unfold runPipeline at h
  split at h
  · rename_i f1 heq
    exact ⟨f1, heq, h⟩
  · simp at h

/-- Forward form of calculate_kpis when the five date columns resolve. -/
theorem calculate_kpis_ok_of (f : Frame) (i1 i2 i3 i4 i5 : Nat)
    (h1 : colIdx f.header ccName = some i1) (h2 : colIdx f.header apName = some i2)
    (h3 : colIdx f.header vgName = some i3) (h4 : colIdx f.header elName = some i4)
    (h5 : colIdx f.header pdName = some i5) :
    calculate_kpis f = Except.ok (addKpi4 get_approx_months_diff
      (Frame.mk f.header (parse5 toDatetimeFixedCell f.rows i1 i2 i3 i4 i5))
      i1 i2 i3 i4 i5) := by
  unfold calculate_kpis
  rw [h1, h2, h3, h4, h5]

/-- Forward form of transform_data when all required columns resolve. -/
theorem transform_data_ok_of (lenient : RawCell → Option Date) (f0 : Frame)
    (i1 i2 i3 i4 i5 j1 j2 j3 j4 j5 j6 j7 : Nat)
    (h1 : colIdx f0.header ccName = some i1) (h2 : colIdx f0.header apName = some i2)
    (h3 : colIdx f0.header vgName = some i3) (h4 : colIdx f0.header elName = some i4)
    (h5 : colIdx f0.header pdName = some i5)
    (g1 : colIdx (kpiHeader f0.header) idName = some j1)
    (g2 : colIdx (kpiHeader f0.header) noName = some j2)
    (g3 : colIdx (kpiHeader f0.header) paisName = some j3)
    (g4 : colIdx (kpiHeader f0.header) gopName = some j4)
    (g5 : colIdx (kpiHeader f0.header) aliasName = some j5)
    (g6 : colIdx (kpiHeader f0.header) secName = some j6)
    (g7 : colIdx (kpiHeader f0.header) subName = some j7) :
    transform_data lenient f0 = Except.ok (meltYearFilter
      (parse5 (toDatetimeLenientCell lenient) (dedupRows f0.rows []) i1 i2 i3 i4 i5)
      [j1, j2, j3, j4, j5, j6, j7, i1, i2, i3, i4, i5] i1 i2 i3 i4 i5) := by
  unfold transform_data
  rw [h1, h2, h3, h4, h5, g1, g2, g3, g4, g5, g6, g7]

/-- The relativedelta months of a date with itself is zero. -/
theorem relativedeltaMonths_self (d : Date) (h : monthOk d) :
    relativedeltaMonths d d = 0 := by
  have hd := rdTotal_of_not_lt d d h h (ltb_irrefl d)
  have hcond : d.ltb (radd d (monthIdx d - monthIdx d)) = false := by
    rw [show monthIdx d - monthIdx d = 0 by ring]
    have hio : monthIdx (radd d 0) = monthIdx d := by rw [monthIdx_radd]; ring
    have hym := monthIdx_inj _ _ (monthOk_radd d 0 h) h hio
    have hday := radd_day_le d 0
    rw [Bool.eq_false_iff]
    intro hc
    rw [ltb_iff] at hc
    omega
  rw [hcond] at hd
  simp only [Bool.false_eq_true, if_false] at hd
  rw [show monthIdx d - monthIdx d = 0 by ring] at hd
  unfold relativedeltaMonths
  rw [hd]
  decide

/-- C3: every observation in the pipeline output has a present kpi_value
that is at least zero, and the row whose first disbursement precedes its
eligibility produces no observation at all: the negative duration is dropped,
not clamped to zero. -/
theorem emitted_kpi_nonneg :
    (∀ (lenient : RawCell → Option Date) (f : Frame) (out : List Obs),
      runPipeline lenient f = Except.ok out →
      ∀ o ∈ out, ∃ v, o.kpi = some v ∧ 0 ≤ v) ∧
    runPipeline lenNone frameNeg = Except.ok [] := by
  constructor
  · intro lenient f out h o ho
    obtain ⟨f1, hck, htd⟩ := runPipeline_ok_inv lenient f out h
    obtain ⟨i1, i2, i3, i4, i5, j1, j2, j3, j4, j5, j6, j7,
      _, _, _, _, _, _, _, _, _, _, _, _, hout⟩ :=
      transform_data_ok_inv lenient f1 out htd
    subst hout
    exact (keepObs_iff o.kpi).mp (mem_meltYearFilter o _ _ _ _ _ _ _ ho).1
  · rfl

/-- Witness for C3: a concrete run emits observations and each one has a
present, nonnegative kpi_value. -/
theorem emitted_kpi_nonneg_witness :
    runPipeline lenNone frameC1 = Except.ok outC1 ∧
      ∀ o ∈ outC1, ∃ v, o.kpi = some v ∧ 0 ≤ v :=
  ⟨by rfl, emitted_kpi_nonneg.1 lenNone frameC1 outC1 (by rfl)⟩

/-- C10: every emitted kpi_value lies between 0 and 11: the computation
keeps only the months component of the calendar delta, whose absolute value
never exceeds 11, and the filter removes negatives. -/
theorem emitted_kpi_le_eleven :
    ∀ (lenient : RawCell → Option Date) (f : Frame) (out : List Obs),
      runPipeline lenient f = Except.ok out →
      ∀ o ∈ out, ∃ v, o.kpi = some v ∧ 0 ≤ v ∧ v ≤ 11 := by
  intro lenient f out h o ho
  obtain ⟨f1, hck, htd⟩ := runPipeline_ok_inv lenient f out h
  obtain ⟨i1, i2, i3, i4, i5, j1, j2, j3, j4, j5, j6, j7,
    _, _, _, _, _, _, _, _, _, _, _, _, hout⟩ :=
    transform_data_ok_inv lenient f1 out htd
  subst hout
  obtain ⟨hk, r, hr, a, b, hkpi⟩ := mem_meltYearFilter o _ _ _ _ _ _ _ ho
  obtain ⟨v, hv, h0⟩ := (keepObs_iff o.kpi).mp hk
  refine ⟨v, hv, h0, ?_⟩
  rw [hkpi] at hv
  cases hA : dateAt r a <;> cases hB : dateAt r b <;> rw [hA, hB] at hv <;>
    simp [kpiMonths] at hv
  rename_i l e
  have hb := setMonths_natAbs_le (rdTotal l e)
  unfold relativedeltaMonths at hv
  omega

/-- Witness for C10 at a concrete run. -/
theorem emitted_kpi_le_eleven_witness :
    runPipeline lenNone frameC1 = Except.ok outC1 ∧
      ∀ o ∈ outC1, ∃ v, o.kpi = some v ∧ 0 ≤ v ∧ v ≤ 11 :=
  ⟨by rfl, emitted_kpi_le_eleven lenNone frameC1 outC1 (by rfl)⟩

/-- C4: a KPI is computed exactly when both endpoint dates are present
(absent, not zero, otherwise); every emitted observation therefore stems
from a milestone pair that was fully present; and the concrete row lacking
its approval date yields no Approval observation while still yielding its
Eligibility and FirstDisbursement observations. -/
theorem kpi_requires_both_endpoints :
    (∀ a b : Option Date,
      (kpiMonths a b).isSome = true ↔ (a.isSome = true ∧ b.isSome = true)) ∧
    (∀ (lenient : RawCell → Option Date) (f : Frame) (out : List Obs),
      runPipeline lenient f = Except.ok out →
      ∀ o ∈ out, ∃ lat ear : Date, o.kpi = some (relativedeltaMonths lat ear)) ∧
    runPipeline lenNone frameC4 = Except.ok outC4 := by
  refine ⟨fun a b => by cases a <;> cases b <;> simp [kpiMonths], ?_, by rfl⟩
  intro lenient f out h o ho
  obtain ⟨f1, hck, htd⟩ := runPipeline_ok_inv lenient f out h
  obtain ⟨i1, i2, i3, i4, i5, j1, j2, j3, j4, j5, j6, j7,
    _, _, _, _, _, _, _, _, _, _, _, _, hout⟩ :=
    transform_data_ok_inv lenient f1 out htd
  subst hout
  obtain ⟨hk, r, hr, a, b, hkpi⟩ := mem_meltYearFilter o _ _ _ _ _ _ _ ho
  obtain ⟨v, hv, h0⟩ := (keepObs_iff o.kpi).mp hk
  cases hA : dateAt r a <;> cases hB : dateAt r b <;> rw [hkpi, hA, hB] at hv <;>
    simp [kpiMonths] at hv
  rename_i l e
  exact ⟨l, e, by rw [hkpi, hA, hB]; rfl⟩

/-- Witness for C4 at a concrete run. -/
theorem kpi_requires_both_endpoints_witness :
    runPipeline lenNone frameC4 = Except.ok outC4 ∧
      ∀ o ∈ outC4, ∃ lat ear : Date, o.kpi = some (relativedeltaMonths lat ear) :=
  ⟨by rfl, kpi_requires_both_endpoints.2.1 lenNone frameC4 outC4 (by rfl)⟩

/-- C9: a KPI whose two endpoint dates coincide is computed as zero, and the
zero-duration observation passes the filter and appears in the output. -/
theorem zero_duration_kept :
    (∀ d : Date, monthOk d → kpiMonths (some d) (some d) = some 0) ∧
    runPipeline lenNone frameZero = Except.ok outZero :=
  ⟨fun d h => by
    show some (relativedeltaMonths d d) = some 0
    rw [relativedeltaMonths_self d h], by rfl⟩

/-- Witness for C9 at a concrete date. -/
theorem zero_duration_kept_witness :
    monthOk (Date.mk 2021 6 1) ∧
      kpiMonths (some (Date.mk 2021 6 1)) (some (Date.mk 2021 6 1)) = some 0 :=
  ⟨by decide, zero_duration_kept.1 (Date.mk 2021 6 1) (by decide)⟩

/-- C8: the pipeline is a pure function of its input table: running it on an
identical copy yields the identical output list, hence the same set of
observations. -/
theorem pipeline_idempotent :
    ∀ (lenient : RawCell → Option Date) (f1 f2 : Frame), f1 = f2 →
      runPipeline lenient f1 = runPipeline lenient f2 := by
  intro lenient f1 f2 h
  rw [h]

/-- Witness for C8 at a concrete run. -/
theorem pipeline_idempotent_witness :
    runPipeline lenNone frameC1 = runPipeline lenNone frameC1 :=
  pipeline_idempotent lenNone frameC1 frameC1 rfl

/-- C1: the year attached to an observation is read from the FIRST
deduplicated row (iloc zero), not from the observation's own row.  On
frameC1 the stage P2 has approval date 15/03/2021 (year 2021), yet its
Approval observation carries year 2020, the approval year of the first row
P1. -/
theorem year_taken_from_first_row :
    runPipeline lenNone frameC1 = Except.ok outC1 ∧
      outC1.getD 1 (metaObs "" "" none none) =
        metaObs "P2" kApName (some 2) (some 2020) ∧
      parseFixedFmt (RawCell.text "15/03/2021") = some (Date.mk 2021 3 15) ∧
      (Date.mk 2021 3 15).year ≠ (2020 : Int) :=
  ⟨by rfl, by rfl, by rfl, by decide⟩

/-- C2 counterexample: with consultation 2020-01-10 and approval 2021-04-10
both present, the elapsed whole calendar months are 15 but the pipeline
computes a kpi_value of 3, so kpi_value is not the elapsed whole-month
count. -/
theorem kpi_not_whole_months :
    kpiMonths (some (Date.mk 2021 4 10)) (some (Date.mk 2020 1 10)) = some 3 ∧
      wholeCalendarMonths (Date.mk 2020 1 10) (Date.mk 2021 4 10) = 15 ∧
      (3 : Int) ≠ (15 : Int) :=
  ⟨by decide, by decide, by decide⟩

/-- Witness for C2 at the scenario dates: consultation 2020-01-10, approval
2020-04-10 yield a KPI equal to the elapsed whole calendar months (3) mod
12. -/
theorem kpi_whole_months_mod_witness :
    monthOk (Date.mk 2020 1 10) ∧ monthOk (Date.mk 2020 4 10) ∧
      1 ≤ (Date.mk 2020 1 10).year ∧
      (Date.mk 2020 4 10).ltb (Date.mk 2020 1 10) = false ∧
      kpiMonths (some (Date.mk 2020 4 10)) (some (Date.mk 2020 1 10)) =
        some ((wholeCalendarMonths (Date.mk 2020 1 10) (Date.mk 2020 4 10) % 12 : Nat) : Int) ∧
      wholeCalendarMonths (Date.mk 2020 1 10) (Date.mk 2020 4 10) = 3 :=
  ⟨by decide, by decide, by decide, by decide,
   kpiMonths_eq_wholeMonths_mod (Date.mk 2020 1 10) (Date.mk 2020 4 10)
     (by decide) (by decide) (by decide) (by decide), by decide⟩

/-- The five column parses act row by row. -/
theorem parse5_map (g : Cell → Cell) (rows : List (List Cell)) (i1 i2 i3 i4 i5 : Nat) :
    parse5 g rows i1 i2 i3 i4 i5 = rows.map (parseRow g i1 i2 i3 i4 i5) := by
  unfold parse5 mapColRows parseRow parse1
  simp only [List.map_map]
  rfl

/-- A column assignment whose values are a row-wise function of the frame
acts row by row; it can only grow a row, and it leaves every cell alone whose
header name differs from the assigned name. -/
theorem setCol_shape (hd : List String) (n : String) (vf : List Cell → Cell) :
    ∃ rf : List Cell → List Cell,
      (∀ rows : List (List Cell),
        setColRows hd rows n (rows.map vf) = Frame.mk (setColHeader hd n) (rows.map rf)) ∧
      (∀ r : List Cell, r.length ≤ (rf r).length) ∧
      (∀ (r : List Cell) (i : Nat), i < r.length → hd.getD i "" ≠ n →
        cellD (rf r) i = cellD r i) := by
  cases hc : colIdx hd n with
  | some p =>
    refine ⟨fun r => r.set p (vf r), fun rows => ?_, fun r => by rw [List.length_set],
      fun r i hi hne => ?_⟩
    · simp [setColRows, setColHeader, hc, zipWith_self_map]
    · have hp := colIdx_getD hd n p hc
      have hip : i ≠ p := by
        intro he
        subst he
        exact hne hp.1
      simp only [cellD]
      exact getD_set_ne r i p (vf r) _ hip
  | none =>
    refine ⟨fun r => r ++ [vf r], fun rows => ?_, fun r => by simp, fun r i hi _ => ?_⟩
    · simp [setColRows, setColHeader, hc, zipWith_self_map]
    · simp only [cellD]
      exact getD_append_left r [vf r] _ i hi

/-- The name at a position of an assigned header is the old name there or the
assigned name. -/
theorem getD_setColHeader (h : List String) (n : String) (i : Nat) :
    (setColHeader h n).getD i "" = h.getD i "" ∨ (setColHeader h n).getD i "" = n := by
  rcases setColHeader_cases h n with hc | hc
  · rw [hc]
    exact Or.inl rfl
  · rw [hc]
    by_cases hi : i < h.length
    · exact Or.inl (getD_append_left h [n] "" i hi)
    · by_cases hi2 : i = h.length
      · subst hi2
        refine Or.inr ?_
        rw [List.getD_eq_getElem?_getD, List.getElem?_concat_length]
        rfl
      · refine Or.inl ?_
        rw [List.getD_eq_getElem?_getD, List.getD_eq_getElem?_getD,
          List.getElem?_eq_none (show (h ++ [n]).length ≤ i by simp; omega),
          List.getElem?_eq_none (show h.length ≤ i by omega)]

/-- The header of the four KPI assignments. -/
theorem addKpi4_header (kf : Option Date → Option Date → Option Int) (f : Frame)
    (i1 i2 i3 i4 i5 : Nat) :
    (addKpi4 kf f i1 i2 i3 i4 i5).header = kpiHeader f.header := by
  unfold addKpi4 kpiHeader Frame.setCol
  simp only [setColRows_header]

/-- The four KPI assignments act row by row with a single, rows-independent
row transformer; the transformer can only grow a row, and it leaves alone
every cell whose header name is none of the four KPI names. -/
theorem addKpi4_shape (kf : Option Date → Option Date → Option Int)
    (hd : List String) (i1 i2 i3 i4 i5 : Nat) :
    ∃ rf : List Cell → List Cell,
      (∀ rows : List (List Cell),
        addKpi4 kf (Frame.mk hd rows) i1 i2 i3 i4 i5 =
          Frame.mk (kpiHeader hd) (rows.map rf)) ∧
      (∀ r : List Cell, r.length ≤ (rf r).length) ∧
      (∀ (r : List Cell) (i : Nat), i < r.length →
        hd.getD i "" ≠ kApName → hd.getD i "" ≠ kVgName →
        hd.getD i "" ≠ kElName → hd.getD i "" ≠ kPdName →
        cellD (rf r) i = cellD r i) := by
  obtain ⟨rf1, he1, hl1, hp1⟩ := setCol_shape hd kApName
    (fun r => Cell.num (kf (dateAt r i2) (dateAt r i1)))
  obtain ⟨rf2, he2, hl2, hp2⟩ := setCol_shape (setColHeader hd kApName) kVgName
    (fun r => Cell.num (kf (dateAt r i3) (dateAt r i2)))
  obtain ⟨rf3, he3, hl3, hp3⟩ := setCol_shape
    (setColHeader (setColHeader hd kApName) kVgName) kElName
    (fun r => Cell.num (kf (dateAt r i4) (dateAt r i3)))
  obtain ⟨rf4, he4, hl4, hp4⟩ := setCol_shape
    (setColHeader (setColHeader (setColHeader hd kApName) kVgName) kElName) kPdName
    (fun r => Cell.num (kf (dateAt r i5) (dateAt r i4)))
  refine ⟨fun r => rf4 (rf3 (rf2 (rf1 r))), fun rows => ?_, fun r => ?_,
    fun r i hi c1 c2 c3 c4 => ?_⟩
  · show Frame.setCol _ kPdName _ = _
    rw [show (Frame.mk hd rows).rows = rows from rfl]
    have s1 := he1 rows
    rw [show Frame.setCol (Frame.mk hd rows) kApName (rows.map
        (fun r => Cell.num (kf (dateAt r i2) (dateAt r i1)))) =
      setColRows hd rows kApName (rows.map
        (fun r => Cell.num (kf (dateAt r i2) (dateAt r i1)))) from rfl, s1]
    have s2 := he2 (rows.map rf1)
    rw [show Frame.setCol (Frame.mk (setColHeader hd kApName) (rows.map rf1)) kVgName
        ((rows.map rf1).map (fun r => Cell.num (kf (dateAt r i3) (dateAt r i2)))) =
      setColRows (setColHeader hd kApName) (rows.map rf1) kVgName
        ((rows.map rf1).map (fun r => Cell.num (kf (dateAt r i3) (dateAt r i2)))) from rfl, s2]
    have s3 := he3 ((rows.map rf1).map rf2)
    rw [show Frame.setCol (Frame.mk (setColHeader (setColHeader hd kApName) kVgName)
          ((rows.map rf1).map rf2)) kElName
        (((rows.map rf1).map rf2).map (fun r => Cell.num (kf (dateAt r i4) (dateAt r i3)))) =
      setColRows (setColHeader (setColHeader hd kApName) kVgName)
        ((rows.map rf1).map rf2) kElName
        (((rows.map rf1).map rf2).map (fun r => Cell.num (kf (dateAt r i4) (dateAt r i3)))) from rfl, s3]
    have s4 := he4 (((rows.map rf1).map rf2).map rf3)
    rw [show Frame.setCol (Frame.mk (setColHeader (setColHeader (setColHeader hd kApName)
          kVgName) kElName) (((rows.map rf1).map rf2).map rf3)) kPdName
        ((((rows.map rf1).map rf2).map rf3).map
          (fun r => Cell.num (kf (dateAt r i5) (dateAt r i4)))) =
      setColRows (setColHeader (setColHeader (setColHeader hd kApName) kVgName) kElName)
        (((rows.map rf1).map rf2).map rf3) kPdName
        ((((rows.map rf1).map rf2).map rf3).map
          (fun r => Cell.num (kf (dateAt r i5) (dateAt r i4)))) from rfl, s4]
    simp [kpiHeader, List.map_map]
  · calc r.length ≤ (rf1 r).length := hl1 r
      _ ≤ (rf2 (rf1 r)).length := hl2 _
      _ ≤ (rf3 (rf2 (rf1 r))).length := hl3 _
      _ ≤ (rf4 (rf3 (rf2 (rf1 r)))).length := hl4 _
  · have n2 : (setColHeader hd kApName).getD i "" ≠ kVgName := by
      rcases getD_setColHeader hd kApName i with hg | hg <;> rw [hg]
      · exact c2
      · decide
    have n3 : (setColHeader (setColHeader hd kApName) kVgName).getD i "" ≠ kElName := by
      rcases getD_setColHeader (setColHeader hd kApName) kVgName i with hg | hg <;> rw [hg]
      · rcases getD_setColHeader hd kApName i with hg2 | hg2 <;> rw [hg2]
        · exact c3
        · decide
      · decide
    have n4 : (setColHeader (setColHeader (setColHeader hd kApName) kVgName)
        kElName).getD i "" ≠ kPdName := by
      rcases getD_setColHeader (setColHeader (setColHeader hd kApName) kVgName)
        kElName i with hg | hg <;> rw [hg]
      · rcases getD_setColHeader (setColHeader hd kApName) kVgName i with hg2 | hg2 <;> rw [hg2]
        · rcases getD_setColHeader hd kApName i with hg3 | hg3 <;> rw [hg3]
          · exact c4
          · decide
        · decide
      · decide
    rw [hp4 _ i (by
        calc i < r.length := hi
          _ ≤ (rf1 r).length := hl1 r
          _ ≤ (rf2 (rf1 r)).length := hl2 _
          _ ≤ (rf3 (rf2 (rf1 r))).length := hl3 _) n4,
      hp3 _ i (by
        calc i < r.length := hi
          _ ≤ (rf1 r).length := hl1 r
          _ ≤ (rf2 (rf1 r)).length := hl2 _) n3,
      hp2 _ i (by
        calc i < r.length := hi
          _ ≤ (rf1 r).length := hl1 r) n2,
      hp1 r i hi c1]

/-- calculate_kpis fails exactly by a KeyError when some date column cannot
be resolved. -/
theorem calculate_kpis_err (f : Frame)
    (h : ¬ ∃ i1 i2 i3 i4 i5, colIdx f.header ccName = some i1 ∧
      colIdx f.header apName = some i2 ∧ colIdx f.header vgName = some i3 ∧
      colIdx f.header elName = some i4 ∧ colIdx f.header pdName = some i5) :
    calculate_kpis f = Except.error "KeyError: missing date column" := by
  unfold calculate_kpis
  split
  · rename_i i1 i2 i3 i4 i5 h1 h2 h3 h4 h5
    exact absurd ⟨i1, i2, i3, i4, i5, h1, h2, h3, h4, h5⟩ h
  · rfl

/-- transform_data only looks at the header and the deduplicated rows. -/
theorem transform_data_congr (lenient : RawCell → Option Date) (f g : Frame)
    (hh : f.header = g.header) (hr : dedupRows f.rows [] = dedupRows g.rows []) :
    transform_data lenient f = transform_data lenient g := by
  unfold transform_data
  rw [hh, hr]

/-- C5 counterexample: the two rows of frameDup differ (in the raw spelling
of the consultation date), yet the pipeline output equals the output of the
single-row frameSingle, so the second row neither survives nor contributes
observations. -/
theorem differing_rows_collapse :
    frameDup.rows.getD 0 [] ≠ frameDup.rows.getD 1 [] ∧
      runPipeline lenNone frameDup = runPipeline lenNone frameSingle ∧
      frameSingle.rows = [frameDup.rows.getD 0 []] :=
  ⟨by decide, by rfl, by rfl⟩

/-- C5 (amended): an exact duplicate row contributes nothing to the pipeline
output (deduplication collapses it), and deduplication retains a copy of
every input row as it stands after date normalisation: rows distinct at that
point are both retained. -/
theorem dedup_semantics :
    (∀ (lenient : RawCell → Option Date) (hdr : List String)
        (l1 l2 l3 : List (List Cell)) (r : List Cell),
      runPipeline lenient (Frame.mk hdr (l1 ++ r :: (l2 ++ r :: l3))) =
        runPipeline lenient (Frame.mk hdr (l1 ++ r :: (l2 ++ l3)))) ∧
    (∀ (rows : List (List Cell)) (r : List Cell), r ∈ rows →
      r ∈ dedupRows rows []) := by
  constructor
  · intro lenient hdr l1 l2 l3 r
    by_cases hA : ∃ i1 i2 i3 i4 i5, colIdx hdr ccName = some i1 ∧
        colIdx hdr apName = some i2 ∧ colIdx hdr vgName = some i3 ∧
        colIdx hdr elName = some i4 ∧ colIdx hdr pdName = some i5
    · obtain ⟨i1, i2, i3, i4, i5, h1, h2, h3, h4, h5⟩ := hA
      obtain ⟨rf, hrf, _, _⟩ := addKpi4_shape get_approx_months_diff hdr i1 i2 i3 i4 i5
      have hcA := calculate_kpis_ok_of (Frame.mk hdr (l1 ++ r :: (l2 ++ r :: l3)))
        i1 i2 i3 i4 i5 h1 h2 h3 h4 h5
      have hcB := calculate_kpis_ok_of (Frame.mk hdr (l1 ++ r :: (l2 ++ l3)))
        i1 i2 i3 i4 i5 h1 h2 h3 h4 h5
      rw [show (Frame.mk hdr (l1 ++ r :: (l2 ++ r :: l3))).rows =
        l1 ++ r :: (l2 ++ r :: l3) from rfl, parse5_map,
        hrf ((l1 ++ r :: (l2 ++ r :: l3)).map
          (parseRow toDatetimeFixedCell i1 i2 i3 i4 i5)), List.map_map] at hcA
      rw [show (Frame.mk hdr (l1 ++ r :: (l2 ++ l3))).rows =
        l1 ++ r :: (l2 ++ l3) from rfl, parse5_map,
        hrf ((l1 ++ r :: (l2 ++ l3)).map
          (parseRow toDatetimeFixedCell i1 i2 i3 i4 i5)), List.map_map] at hcB
      unfold runPipeline
      rw [hcA, hcB]
      exact transform_data_congr lenient _ _ rfl (by
        simp only [List.map_append, List.map_cons]
        exact dedupRows_dup _ _ _ _ [])
    · have hcA := calculate_kpis_err (Frame.mk hdr (l1 ++ r :: (l2 ++ r :: l3))) hA
      have hcB := calculate_kpis_err (Frame.mk hdr (l1 ++ r :: (l2 ++ l3))) hA
      unfold runPipeline
      rw [hcA, hcB]
  · intro rows r hr
    exact mem_dedupRows_of_mem rows r [] hr (by simp)

/-- Witness for C5 (amended) at concrete inputs: duplicating the single row
of frameSingle changes nothing, and the row is retained by
deduplication. -/
theorem dedup_semantics_witness :
    runPipeline lenNone (Frame.mk hdr0
        ([] ++ mkStageRow (sCell "P1") (sCell "1/3/2020") (sCell "01/05/2020")
          bCell bCell bCell :: ([] ++ mkStageRow (sCell "P1") (sCell "1/3/2020")
          (sCell "01/05/2020") bCell bCell bCell :: [])) ) =
      runPipeline lenNone (Frame.mk hdr0
        ([] ++ mkStageRow (sCell "P1") (sCell "1/3/2020") (sCell "01/05/2020")
          bCell bCell bCell :: ([] ++ []))) ∧
    mkStageRow (sCell "P1") (sCell "1/3/2020") (sCell "01/05/2020") bCell bCell bCell ∈
      dedupRows [mkStageRow (sCell "P1") (sCell "1/3/2020") (sCell "01/05/2020")
        bCell bCell bCell] [] :=
  ⟨dedup_semantics.1 lenNone hdr0 [] [] []
      (mkStageRow (sCell "P1") (sCell "1/3/2020") (sCell "01/05/2020") bCell bCell bCell),
   dedup_semantics.2 _ _ (by simp)⟩

/-- A non-KPI name found in a twice KPI-extended header was already in the
base header. -/
theorem mem_of_mem_kpiHeader_twice (h : List String) (c : String)
    (hm : c ∈ kpiHeader (kpiHeader h)) (n1 : c ≠ kApName) (n2 : c ≠ kVgName)
    (n3 : c ≠ kElName) (n4 : c ≠ kPdName) : c ∈ h := by
  rw [mem_kpiHeader, mem_kpiHeader] at hm
  tauto

/-- C6: when any required identifier or milestone column is missing from the
input table the pipeline surfaces a KeyError and produces no output; when all
required columns are present it always returns an output list, whatever the
cell values are (a malformed date value never interrupts it). -/
theorem schema_error_and_totality :
    ∀ (lenient : RawCell → Option Date) (f : Frame),
      ((∃ c ∈ requiredColumns, c ∉ f.header) →
        ∃ msg, runPipeline lenient f = Except.error msg) ∧
      ((∀ c ∈ requiredColumns, c ∈ f.header) →
        ∃ out, runPipeline lenient f = Except.ok out) := by
  intro lenient f
  constructor
  · rintro ⟨c, hcr, hcnot⟩
    have hnok : ∀ out, runPipeline lenient f ≠ Except.ok out := by
      intro out hok
      obtain ⟨f1, hck, htd⟩ := runPipeline_ok_inv lenient f out hok
      obtain ⟨i1, i2, i3, i4, i5, h1, h2, h3, h4, h5, hf1⟩ :=
        calculate_kpis_ok_inv f f1 hck
      have hf1h : f1.header = kpiHeader f.header := by
        rw [hf1]
        exact addKpi4_header _ _ i1 i2 i3 i4 i5
      obtain ⟨a1, a2, a3, a4, a5, b1, b2, b3, b4, b5, b6, b7,
        g1, g2, g3, g4, g5, g6, g7, g8, g9, g10, g11, g12, _⟩ :=
        transform_data_ok_inv lenient f1 out htd
      have hcc : ccName ∈ f.header := (colIdx_isSome_iff _ _).mp ⟨i1, h1⟩
      have hap : apName ∈ f.header := (colIdx_isSome_iff _ _).mp ⟨i2, h2⟩
      have hvg : vgName ∈ f.header := (colIdx_isSome_iff _ _).mp ⟨i3, h3⟩
      have hel : elName ∈ f.header := (colIdx_isSome_iff _ _).mp ⟨i4, h4⟩
      have hpd : pdName ∈ f.header := (colIdx_isSome_iff _ _).mp ⟨i5, h5⟩
      have hid : idName ∈ f.header := by
        have := (colIdx_isSome_iff _ _).mp ⟨b1, g6⟩
        rw [hf1h] at this
        exact mem_of_mem_kpiHeader_twice _ _ this (by decide) (by decide)
          (by decide) (by decide)
      have hno : noName ∈ f.header := by
        have := (colIdx_isSome_iff _ _).mp ⟨b2, g7⟩
        rw [hf1h] at this
        exact mem_of_mem_kpiHeader_twice _ _ this (by decide) (by decide)
          (by decide) (by decide)
      have hpais : paisName ∈ f.header := by
        have := (colIdx_isSome_iff _ _).mp ⟨b3, g8⟩
        rw [hf1h] at this
        exact mem_of_mem_kpiHeader_twice _ _ this (by decide) (by decide)
          (by decide) (by decide)
      have hgop : gopName ∈ f.header := by
        have := (colIdx_isSome_iff _ _).mp ⟨b4, g9⟩
        rw [hf1h] at this
        exact mem_of_mem_kpiHeader_twice _ _ this (by decide) (by decide)
          (by decide) (by decide)
      have hal : aliasName ∈ f.header := by
        have := (colIdx_isSome_iff _ _).mp ⟨b5, g10⟩
        rw [hf1h] at this
        exact mem_of_mem_kpiHeader_twice _ _ this (by decide) (by decide)
          (by decide) (by decide)
      have hsec : secName ∈ f.header := by
        have := (colIdx_isSome_iff _ _).mp ⟨b6, g11⟩
        rw [hf1h] at this
        exact mem_of_mem_kpiHeader_twice _ _ this (by decide) (by decide)
          (by decide) (by decide)
      have hsub : subName ∈ f.header := by
        have := (colIdx_isSome_iff _ _).mp ⟨b7, g12⟩
        rw [hf1h] at this
        exact mem_of_mem_kpiHeader_twice _ _ this (by decide) (by decide)
          (by decide) (by decide)
      fin_cases hcr <;> simp_all
    cases hre : runPipeline lenient f with
    | error msg => exact ⟨msg, rfl⟩
    | ok out => exact absurd hre (hnok out)
  · intro hall
    obtain ⟨i1, h1⟩ := (colIdx_isSome_iff f.header ccName).mpr (hall ccName (by decide))
    obtain ⟨i2, h2⟩ := (colIdx_isSome_iff f.header apName).mpr (hall apName (by decide))
    obtain ⟨i3, h3⟩ := (colIdx_isSome_iff f.header vgName).mpr (hall vgName (by decide))
    obtain ⟨i4, h4⟩ := (colIdx_isSome_iff f.header elName).mpr (hall elName (by decide))
    obtain ⟨i5, h5⟩ := (colIdx_isSome_iff f.header pdName).mpr (hall pdName (by decide))
    have hck := calculate_kpis_ok_of f i1 i2 i3 i4 i5 h1 h2 h3 h4 h5
    have hf1h : (addKpi4 get_approx_months_diff
        (Frame.mk f.header (parse5 toDatetimeFixedCell f.rows i1 i2 i3 i4 i5))
        i1 i2 i3 i4 i5).header = kpiHeader f.header :=
      addKpi4_header _ _ i1 i2 i3 i4 i5
    have hmem1 : ∀ c : String, c ∈ f.header → c ∈ kpiHeader f.header := by
      intro c hc
      rw [mem_kpiHeader]
      exact Or.inl hc
    obtain ⟨a1, k1⟩ := (colIdx_isSome_iff (kpiHeader f.header) ccName).mpr
      (hmem1 _ (hall ccName (by decide)))
    obtain ⟨a2, k2⟩ := (colIdx_isSome_iff (kpiHeader f.header) apName).mpr
      (hmem1 _ (hall apName (by decide)))
    obtain ⟨a3, k3⟩ := (colIdx_isSome_iff (kpiHeader f.header) vgName).mpr
      (hmem1 _ (hall vgName (by decide)))
    obtain ⟨a4, k4⟩ := (colIdx_isSome_iff (kpiHeader f.header) elName).mpr
      (hmem1 _ (hall elName (by decide)))
    obtain ⟨a5, k5⟩ := (colIdx_isSome_iff (kpiHeader f.header) pdName).mpr
      (hmem1 _ (hall pdName (by decide)))
    have hmem2 : ∀ c : String, c ∈ f.header → c ∈ kpiHeader (kpiHeader f.header) := by
      intro c hc
      rw [mem_kpiHeader]
      exact Or.inl (hmem1 c hc)
    obtain ⟨b1, g1⟩ := (colIdx_isSome_iff (kpiHeader (kpiHeader f.header)) idName).mpr
      (hmem2 _ (hall idName (by decide)))
    obtain ⟨b2, g2⟩ := (colIdx_isSome_iff (kpiHeader (kpiHeader f.header)) noName).mpr
      (hmem2 _ (hall noName (by decide)))
    obtain ⟨b3, g3⟩ := (colIdx_isSome_iff (kpiHeader (kpiHeader f.header)) paisName).mpr
      (hmem2 _ (hall paisName (by decide)))
    obtain ⟨b4, g4⟩ := (colIdx_isSome_iff (kpiHeader (kpiHeader f.header)) gopName).mpr
      (hmem2 _ (hall gopName (by decide)))
    obtain ⟨b5, g5⟩ := (colIdx_isSome_iff (kpiHeader (kpiHeader f.header)) aliasName).mpr
      (hmem2 _ (hall aliasName (by decide)))
    obtain ⟨b6, g6⟩ := (colIdx_isSome_iff (kpiHeader (kpiHeader f.header)) secName).mpr
      (hmem2 _ (hall secName (by decide)))
    obtain ⟨b7, g7⟩ := (colIdx_isSome_iff (kpiHeader (kpiHeader f.header)) subName).mpr
      (hmem2 _ (hall subName (by decide)))
    have htd := transform_data_ok_of lenient
      (addKpi4 get_approx_months_diff
        (Frame.mk f.header (parse5 toDatetimeFixedCell f.rows i1 i2 i3 i4 i5))
        i1 i2 i3 i4 i5) a1 a2 a3 a4 a5 b1 b2 b3 b4 b5 b6 b7
      (by rw [hf1h]; exact k1) (by rw [hf1h]; exact k2) (by rw [hf1h]; exact k3)
      (by rw [hf1h]; exact k4) (by rw [hf1h]; exact k5)
      (by rw [hf1h]; exact g1) (by rw [hf1h]; exact g2) (by rw [hf1h]; exact g3)
      (by rw [hf1h]; exact g4) (by rw [hf1h]; exact g5) (by rw [hf1h]; exact g6)
      (by rw [hf1h]; exact g7)
    exact ⟨_, by unfold runPipeline; rw [hck]; exact htd⟩

/-- Witness for C6: a table missing the approval column errors out; a
complete table runs to an output. -/
theorem schema_error_and_totality_witness :
    (∃ msg, runPipeline lenNone frameMissing = Except.error msg) ∧
      (∃ out, runPipeline lenNone frameC1 = Except.ok out) :=
  ⟨(schema_error_and_totality lenNone frameMissing).1 ⟨apName, by decide, by decide⟩,
   (schema_error_and_totality lenNone frameC1).2 (by decide)⟩

/-- A single column parse keeps the row length. -/
theorem parse1_length (g : Cell → Cell) (i : Nat) (r : List Cell) :
    (parse1 g i r).length = r.length := by
  unfold parse1
  exact List.length_set r i _

/-- The five column parses keep the row length. -/
theorem parseRow_length (g : Cell → Cell) (i1 i2 i3 i4 i5 : Nat) (r : List Cell) :
    (parseRow g i1 i2 i3 i4 i5 r).length = r.length := by
  unfold parseRow
  rw [parse1_length, parse1_length, parse1_length, parse1_length, parse1_length]

/-- After a column parse by a converter that always yields datetime cells,
the parsed position holds a datetime cell, and datetime cells elsewhere
survive. -/
theorem parse1_dates (g : Cell → Cell) (hg : ∀ c, ∃ d, g c = Cell.date d)
    (r : List Cell) (i j : Nat) (hj : j < r.length)
    (h : i = j ∨ ∃ d, cellD r i = Cell.date d) :
    ∃ d, cellD (parse1 g j r) i = Cell.date d := by
  by_cases hij : i = j
  · subst hij
    obtain ⟨d, hd⟩ := hg (cellD r i)
    refine ⟨d, ?_⟩
    unfold parse1
    simp only [cellD]
    rw [getD_set_self r i _ _ hj]
    exact hd
  · rcases h with he | ⟨d, hd⟩
    · exact absurd he hij
    · refine ⟨d, ?_⟩
      unfold parse1
      simp only [cellD] at hd ⊢
      rw [getD_set_ne r i j _ _ hij]
      exact hd

/-- After the five column parses by an always-datetime converter, every one
of the five positions holds a datetime cell. -/
theorem parseRow_dates (g : Cell → Cell) (hg : ∀ c, ∃ d, g c = Cell.date d)
    (r : List Cell) (i1 i2 i3 i4 i5 k : Nat)
    (hl1 : i1 < r.length) (hl2 : i2 < r.length) (hl3 : i3 < r.length)
    (hl4 : i4 < r.length) (hl5 : i5 < r.length)
    (hk : k = i1 ∨ k = i2 ∨ k = i3 ∨ k = i4 ∨ k = i5) :
    ∃ d, cellD (parseRow g i1 i2 i3 i4 i5 r) k = Cell.date d := by
  have L1 := parse1_length g i1 r
  have L2 := parse1_length g i2 (parse1 g i1 r)
  have L3 := parse1_length g i3 (parse1 g i2 (parse1 g i1 r))
  have L4 := parse1_length g i4 (parse1 g i3 (parse1 g i2 (parse1 g i1 r)))
  unfold parseRow
  rcases hk with hk | hk | hk | hk | hk
  · exact parse1_dates g hg _ _ i5 (by omega)
      (Or.inr (parse1_dates g hg _ _ i4 (by omega)
        (Or.inr (parse1_dates g hg _ _ i3 (by omega)
          (Or.inr (parse1_dates g hg _ _ i2 (by omega)
            (Or.inr (parse1_dates g hg _ _ i1 hl1 (Or.inl hk)))))))))
  · exact parse1_dates g hg _ _ i5 (by omega)
      (Or.inr (parse1_dates g hg _ _ i4 (by omega)
        (Or.inr (parse1_dates g hg _ _ i3 (by omega)
          (Or.inr (parse1_dates g hg _ _ i2 (by omega) (Or.inl hk)))))))
  · exact parse1_dates g hg _ _ i5 (by omega)
      (Or.inr (parse1_dates g hg _ _ i4 (by omega)
        (Or.inr (parse1_dates g hg _ _ i3 (by omega) (Or.inl hk)))))
  · exact parse1_dates g hg _ _ i5 (by omega)
      (Or.inr (parse1_dates g hg _ _ i4 (by omega) (Or.inl hk)))
  · exact parse1_dates g hg _ _ i5 (by omega) (Or.inl hk)

/-- The lenient converter always yields a datetime cell. -/
theorem toDatetimeLenientCell_isDate (len : RawCell → Option Date) (c : Cell) :
    ∃ d, toDatetimeLenientCell len c = Cell.date d := by
  cases c <;> exact ⟨_, rfl⟩

/-- The fixed converter always yields a datetime cell. -/
theorem toDatetimeFixedCell_isDate (c : Cell) :
    ∃ d, toDatetimeFixedCell c = Cell.date d := by
  cases c <;> exact ⟨_, rfl⟩

/-- A lenient column parse of a column that is already datetime does not
depend on the lenient parser. -/
theorem parse1_congr (len1 len2 : RawCell → Option Date) (i : Nat) (r : List Cell)
    (h : ∃ d, cellD r i = Cell.date d) :
    parse1 (toDatetimeLenientCell len1) i r =
      parse1 (toDatetimeLenientCell len2) i r := by
  obtain ⟨d, hd⟩ := h
  unfold parse1
  rw [hd]
  rfl

/-- On a row whose five date positions already hold datetime cells, the five
lenient column parses do not depend on the lenient parser. -/
theorem parseRow_lenient_eq (len1 len2 : RawCell → Option Date)
    (r : List Cell) (i1 i2 i3 i4 i5 : Nat)
    (hl1 : i1 < r.length) (hl2 : i2 < r.length) (hl3 : i3 < r.length)
    (hl4 : i4 < r.length) (_hl5 : i5 < r.length)
    (hd : ∀ k, (k = i1 ∨ k = i2 ∨ k = i3 ∨ k = i4 ∨ k = i5) →
      ∃ d, cellD r k = Cell.date d) :
    parseRow (toDatetimeLenientCell len1) i1 i2 i3 i4 i5 r =
      parseRow (toDatetimeLenientCell len2) i1 i2 i3 i4 i5 r := by
  have L1 := parse1_length (toDatetimeLenientCell len2) i1 r
  have L2 := parse1_length (toDatetimeLenientCell len2) i2
    (parse1 (toDatetimeLenientCell len2) i1 r)
  have L3 := parse1_length (toDatetimeLenientCell len2) i3
    (parse1 (toDatetimeLenientCell len2) i2 (parse1 (toDatetimeLenientCell len2) i1 r))
  have hA1 : ∀ k, (k = i1 ∨ k = i2 ∨ k = i3 ∨ k = i4 ∨ k = i5) →
      ∃ d, cellD (parse1 (toDatetimeLenientCell len2) i1 r) k = Cell.date d :=
    fun k hk => parse1_dates _ (toDatetimeLenientCell_isDate len2) r k i1 hl1
      (Or.inr (hd k hk))
  have hA2 : ∀ k, (k = i1 ∨ k = i2 ∨ k = i3 ∨ k = i4 ∨ k = i5) →
      ∃ d, cellD (parse1 (toDatetimeLenientCell len2) i2
        (parse1 (toDatetimeLenientCell len2) i1 r)) k = Cell.date d :=
    fun k hk => parse1_dates _ (toDatetimeLenientCell_isDate len2) _ k i2
      (by omega) (Or.inr (hA1 k hk))
  have hA3 : ∀ k, (k = i1 ∨ k = i2 ∨ k = i3 ∨ k = i4 ∨ k = i5) →
      ∃ d, cellD (parse1 (toDatetimeLenientCell len2) i3
        (parse1 (toDatetimeLenientCell len2) i2
          (parse1 (toDatetimeLenientCell len2) i1 r))) k = Cell.date d :=
    fun k hk => parse1_dates _ (toDatetimeLenientCell_isDate len2) _ k i3
      (by omega) (Or.inr (hA2 k hk))
  have hA4 : ∀ k, (k = i1 ∨ k = i2 ∨ k = i3 ∨ k = i4 ∨ k = i5) →
      ∃ d, cellD (parse1 (toDatetimeLenientCell len2) i4
        (parse1 (toDatetimeLenientCell len2) i3
          (parse1 (toDatetimeLenientCell len2) i2
            (parse1 (toDatetimeLenientCell len2) i1 r)))) k = Cell.date d :=
    fun k hk => parse1_dates _ (toDatetimeLenientCell_isDate len2) _ k i4
      (by omega) (Or.inr (hA3 k hk))
  have e1 := parse1_congr len1 len2 i1 r (hd i1 (by tauto))
  have e2 := parse1_congr len1 len2 i2 (parse1 (toDatetimeLenientCell len2) i1 r)
    (hA1 i2 (by tauto))
  have e3 := parse1_congr len1 len2 i3 (parse1 (toDatetimeLenientCell len2) i2
    (parse1 (toDatetimeLenientCell len2) i1 r)) (hA2 i3 (by tauto))
  have e4 := parse1_congr len1 len2 i4 (parse1 (toDatetimeLenientCell len2) i3
    (parse1 (toDatetimeLenientCell len2) i2
      (parse1 (toDatetimeLenientCell len2) i1 r))) (hA3 i4 (by tauto))
  have e5 := parse1_congr len1 len2 i5 (parse1 (toDatetimeLenientCell len2) i4
    (parse1 (toDatetimeLenientCell len2) i3
      (parse1 (toDatetimeLenientCell len2) i2
        (parse1 (toDatetimeLenientCell len2) i1 r)))) (hA4 i5 (by tauto))
  unfold parseRow
  rw [e1, e2, e3, e4, e5]

/-- On rectangular rows whose date positions are already datetime cells, the
five lenient column parses of transform_data do not depend on the lenient
parser. -/
theorem parse5_lenient_eq (len1 len2 : RawCell → Option Date)
    (rows : List (List Cell)) (i1 i2 i3 i4 i5 : Nat)
    (h : ∀ r ∈ rows, (i1 < r.length ∧ i2 < r.length ∧ i3 < r.length ∧
      i4 < r.length ∧ i5 < r.length) ∧
      ∀ k, (k = i1 ∨ k = i2 ∨ k = i3 ∨ k = i4 ∨ k = i5) →
        ∃ d, cellD r k = Cell.date d) :
    parse5 (toDatetimeLenientCell len1) rows i1 i2 i3 i4 i5 =
      parse5 (toDatetimeLenientCell len2) rows i1 i2 i3 i4 i5 := by
  rw [parse5_map, parse5_map]
  apply List.map_congr_left
  intro r hr
  obtain ⟨⟨b1, b2, b3, b4, b5⟩, hdd⟩ := h r hr
  exact parseRow_lenient_eq len1 len2 r i1 i2 i3 i4 i5 b1 b2 b3 b4 b5 hdd

/-- transform_data depends on the lenient parser only through the five
column re-parses of the deduplicated rows. -/
theorem transform_data_lenient_eq (len1 len2 : RawCell → Option Date) (f0 : Frame)
    (hdate : ∀ i1 i2 i3 i4 i5, colIdx f0.header ccName = some i1 →
      colIdx f0.header apName = some i2 → colIdx f0.header vgName = some i3 →
      colIdx f0.header elName = some i4 → colIdx f0.header pdName = some i5 →
      parse5 (toDatetimeLenientCell len1) (dedupRows f0.rows []) i1 i2 i3 i4 i5 =
        parse5 (toDatetimeLenientCell len2) (dedupRows f0.rows []) i1 i2 i3 i4 i5) :
    transform_data len1 f0 = transform_data len2 f0 := by
  unfold transform_data
  cases hq1 : colIdx f0.header ccName with
  | none => rfl
  | some i1 =>
  cases hq2 : colIdx f0.header apName with
  | none => rfl
  | some i2 =>
  cases hq3 : colIdx f0.header vgName with
  | none => rfl
  | some i3 =>
  cases hq4 : colIdx f0.header elName with
  | none => rfl
  | some i4 =>
  cases hq5 : colIdx f0.header pdName with
  | none => rfl
  | some i5 =>
  cases hr1 : colIdx (kpiHeader f0.header) idName with
  | none => rfl
  | some j1 =>
  cases hr2 : colIdx (kpiHeader f0.header) noName with
  | none => rfl
  | some j2 =>
  cases hr3 : colIdx (kpiHeader f0.header) paisName with
  | none => rfl
  | some j3 =>
  cases hr4 : colIdx (kpiHeader f0.header) gopName with
  | none => rfl
  | some j4 =>
  cases hr5 : colIdx (kpiHeader f0.header) aliasName with
  | none => rfl
  | some j5 =>
  cases hr6 : colIdx (kpiHeader f0.header) secName with
  | none => rfl
  | some j6 =>
  cases hr7 : colIdx (kpiHeader f0.header) subName with
  | none => rfl
  | some j7 =>
  exact congrArg Except.ok (congrArg
    (fun rows => meltYearFilter rows [j1, j2, j3, j4, j5, j6, j7, i1, i2, i3, i4, i5]
      i1 i2 i3 i4 i5)
    (hdate i1 i2 i3 i4 i5 hq1 hq2 hq3 hq4 hq5))

/-- C7 counterexample: the raw value 2020-04-10 fails the fixed layout but is
recognised by a lenient parser.  The normalizer the specification describes
rescues it; the normalizer the pipeline composes coerces it to absent before
the lenient pass can see the raw value. -/
theorem lenient_never_sees_raw :
    specNormalize lenISO (RawCell.text "2020-04-10") = some (Date.mk 2020 4 10) ∧
      pipelineNormalize lenISO (RawCell.text "2020-04-10") = none ∧
      (some (Date.mk 2020 4 10) : Option Date) ≠ none :=
  ⟨by rfl, by rfl, by decide⟩

/-- C7 (amended): the composed normalisation equals the fixed-layout parse
alone, because the lenient pass only ever receives already-coerced datetime
cells; consequently, on a rectangular table the pipeline output does not
depend on the lenient parser at all, and no unparseable value ever raises. -/
theorem fixed_parse_only :
    (∀ (lenient : RawCell → Option Date) (c : RawCell),
      pipelineNormalize lenient c = parseFixedFmt c) ∧
    (∀ (len1 len2 : RawCell → Option Date) (f : Frame), Rect f →
      runPipeline len1 f = runPipeline len2 f) := by
  constructor
  · intro lenient c
    rfl
  · intro len1 len2 f hrect
    unfold runPipeline
    cases hck : calculate_kpis f with
    | error msg => rfl
    | ok f1 =>
    show transform_data len1 f1 = transform_data len2 f1
    obtain ⟨i1, i2, i3, i4, i5, h1, h2, h3, h4, h5, hf1⟩ :=
      calculate_kpis_ok_inv f f1 hck
    obtain ⟨rf, hrf, hlen, hpres⟩ :=
      addKpi4_shape get_approx_months_diff f.header i1 i2 i3 i4 i5
    have hb1 := colIdx_getD f.header ccName i1 h1
    have hb2 := colIdx_getD f.header apName i2 h2
    have hb3 := colIdx_getD f.header vgName i3 h3
    have hb4 := colIdx_getD f.header elName i4 h4
    have hb5 := colIdx_getD f.header pdName i5 h5
    have hf1eq : f1 = Frame.mk (kpiHeader f.header)
        ((f.rows.map (parseRow toDatetimeFixedCell i1 i2 i3 i4 i5)).map rf) := by
      rw [hf1, parse5_map]
      exact hrf _
    rw [hf1eq]
    have hc1 : colIdx (kpiHeader f.header) ccName = some i1 := by
      obtain ⟨e, he⟩ := kpiHeader_ext f.header
      rw [he]
      exact colIdx_append_of_some _ _ _ _ h1
    have hc2 : colIdx (kpiHeader f.header) apName = some i2 := by
      obtain ⟨e, he⟩ := kpiHeader_ext f.header
      rw [he]
      exact colIdx_append_of_some _ _ _ _ h2
    have hc3 : colIdx (kpiHeader f.header) vgName = some i3 := by
      obtain ⟨e, he⟩ := kpiHeader_ext f.header
      rw [he]
      exact colIdx_append_of_some _ _ _ _ h3
    have hc4 : colIdx (kpiHeader f.header) elName = some i4 := by
      obtain ⟨e, he⟩ := kpiHeader_ext f.header
      rw [he]
      exact colIdx_append_of_some _ _ _ _ h4
    have hc5 : colIdx (kpiHeader f.header) pdName = some i5 := by
      obtain ⟨e, he⟩ := kpiHeader_ext f.header
      rw [he]
      exact colIdx_append_of_some _ _ _ _ h5
    apply transform_data_lenient_eq
    intro a1 a2 a3 a4 a5 q1 q2 q3 q4 q5
    have ha1 : a1 = i1 := Option.some.inj (q1.symm.trans hc1)
    have ha2 : a2 = i2 := Option.some.inj (q2.symm.trans hc2)
    have ha3 : a3 = i3 := Option.some.inj (q3.symm.trans hc3)
    have ha4 : a4 = i4 := Option.some.inj (q4.symm.trans hc4)
    have ha5 : a5 = i5 := Option.some.inj (q5.symm.trans hc5)
    rw [ha1, ha2, ha3, ha4, ha5]
    apply parse5_lenient_eq
    intro r hrmem
    have hrin : r ∈ (f.rows.map (parseRow toDatetimeFixedCell i1 i2 i3 i4 i5)).map rf :=
      mem_of_mem_dedupRows _ r [] hrmem
    rcases List.mem_map.mp hrin with ⟨r1, hr1, hrr⟩
    rcases List.mem_map.mp hr1 with ⟨r0, hr0, hr01⟩
    have hlen0 : r0.length = f.header.length := hrect r0 hr0
    have hi1 : i1 < r0.length := by rw [hlen0]; exact hb1.2
    have hi2 : i2 < r0.length := by rw [hlen0]; exact hb2.2
    have hi3 : i3 < r0.length := by rw [hlen0]; exact hb3.2
    have hi4 : i4 < r0.length := by rw [hlen0]; exact hb4.2
    have hi5 : i5 < r0.length := by rw [hlen0]; exact hb5.2
    have hlp : (parseRow toDatetimeFixedCell i1 i2 i3 i4 i5 r0).length = r0.length :=
      parseRow_length _ _ _ _ _ _ _
    have hlr : r0.length ≤ r.length := by
      rw [← hrr, ← hr01]
      rw [← hlp]
      exact hlen _
    constructor
    · exact ⟨by omega, by omega, by omega, by omega, by omega⟩
    · intro k hk
      have hnm : f.header.getD k "" ≠ kApName ∧ f.header.getD k "" ≠ kVgName ∧
          f.header.getD k "" ≠ kElName ∧ f.header.getD k "" ≠ kPdName := by
        rcases hk with hk | hk | hk | hk | hk <;> rw [hk]
        · rw [hb1.1]
          exact ⟨by decide, by decide, by decide, by decide⟩
        · rw [hb2.1]
          exact ⟨by decide, by decide, by decide, by decide⟩
        · rw [hb3.1]
          exact ⟨by decide, by decide, by decide, by decide⟩
        · rw [hb4.1]
          exact ⟨by decide, by decide, by decide, by decide⟩
        · rw [hb5.1]
          exact ⟨by decide, by decide, by decide, by decide⟩
      have hkl : k < (parseRow toDatetimeFixedCell i1 i2 i3 i4 i5 r0).length := by
        rw [hlp]
        rcases hk with hk | hk | hk | hk | hk <;> rw [hk] <;> assumption
      have hpr : cellD r k =
          cellD (parseRow toDatetimeFixedCell i1 i2 i3 i4 i5 r0) k := by
        rw [← hrr, ← hr01]
        exact hpres _ k hkl hnm.1 hnm.2.1 hnm.2.2.1 hnm.2.2.2
      rw [hpr]
      exact parseRow_dates toDatetimeFixedCell toDatetimeFixedCell_isDate r0
        i1 i2 i3 i4 i5 k hi1 hi2 hi3 hi4 hi5 hk

/-- Witness for C7 (amended): the composed normalizer on a concrete raw value
equals the fixed parse, and two different lenient parsers give the same
pipeline output on a concrete rectangular table. -/
theorem fixed_parse_only_witness :
    pipelineNormalize lenISO (RawCell.text "01/05/2020") =
        parseFixedFmt (RawCell.text "01/05/2020") ∧
      runPipeline lenISO frameC1 = runPipeline lenNone frameC1 :=
  ⟨fixed_parse_only.1 lenISO (RawCell.text "01/05/2020"),
   fixed_parse_only.2 lenISO lenNone frameC1 (by unfold Rect; decide)⟩

end Estaciones
